import Mathlib

/-!
# goshare demo hub: the matching core of `pkg/hub/demo.go`

A shallow embedding of the paper-trading engine of `pkg/hub/demo.go`
and the properties of its specification that were checked against it.

Conventions of the embedding.

* Go `int32`/`int64` fields are `Int`; where a 32-bit result can leave the
  range (`+`, `*`, `/` on `int32`) the operation is wrapped with `wrap32`.
* `float64` prices are exact rationals (`ℚ`): rounding, infinities and NaN are
  outside the model.
* `time.Now().Unix()` is a parameter `now : Nat` (seconds since the epoch); all
  reads of the clock inside one call of an operation see the same second. The
  local time zone is a parameter `loc`, the offset east of UTC at an instant.
* The channels `chDemoOrder` and `chTrade` are the lists of the messages sent
  on them, oldest first; the mutexes are not modelled (every operation is
  atomic).
* The generated protobuf package is not part of the sources: the messages are
  structures with the fields the code reads or writes, and the values of the
  enum constants are the fields of `PbEnums`.
* A Go run-time panic or a loop that never ends is a `Fault`, recorded next to
  the state reached when it happened.
-/

namespace Hub

/-! ## Machine integers -/

/-- Two's-complement wrap of an integer to the range of Go `int32`. -/
def wrap32 (x : Int) : Int := (x + 2147483648) % 4294967296 - 2147483648

/-- Go `a + b` on `int32`. -/
def add32 (a b : Int) : Int := wrap32 (a + b)

/-- Go `a * b` on `int32`. -/
def mul32 (a b : Int) : Int := wrap32 (a * b)

/-- Go `a / b` on `int32` for `b ≠ 0`: truncated quotient, wrapped (only
`MinInt32 / -1` wraps). -/
def div32 (a b : Int) : Int := wrap32 (Int.tdiv a b)

/-- Go `a % b` on `int32` for `b ≠ 0`: the remainder of the truncated division. -/
def mod32 (a b : Int) : Int := Int.tmod a b

/-! ## Messages of the protobuf packages `pb` and `hubpb` -/

/-- The numeric values of the protobuf enum constants used by `demo.go`. -/
structure PbEnums where
  ProductType_COMBINATION : Int
  OrderSourceType_COMBINATION_DERIVED : Int
  DirectionType_LONG : Int
  DirectionType_SHORT : Int
  OrderPriceType_MARKET_PRICE : Int
  OrderStatus_DONE : Int
  TradeType_TT_NORMAL : Int
  deriving DecidableEq

/-- The message `pb.MarketStatus`: one session rule. -/
structure MarketStatus where
  Time : Int
  Send : Bool
  Matching : Bool
  deriving DecidableEq

/-- The zero value `&pb.MarketStatus{}`. -/
def MarketStatus.zero : MarketStatus := ⟨0, false, false⟩

/-- The message `pb.Instrument`. -/
structure Instrument where
  Symbol : String
  Product : String
  PriceTick : ℚ
  Multiple : Int
  TradingDay : Int
  ProductType : Int
  TimeRule : List MarketStatus
  deriving DecidableEq

/-- The message `hubpb.ReqInsertOrder`. -/
structure ReqInsertOrder where
  TaId : String
  BuId : String
  FrontId : Int
  SessionId : Int
  OrderRef : String
  Exchange : String
  Symbol : String
  Product : String
  Direction : Int
  Offset : Int
  Price : ℚ
  Volume : Int
  PriceType : Int
  deriving DecidableEq

/-- The message `hubpb.DemoOrder`. -/
structure DemoOrder where
  TaId : String
  BuId : String
  FrontId : Int
  SessionId : Int
  OrderRef : String
  Exchange : String
  Symbol : String
  Product : String
  Direction : Int
  Offset : Int
  Price : ℚ
  Volume : Int
  VolumeTraded : Int
  VolumeCanceled : Int
  PriceTick : ℚ
  Multiple : Int
  SendTradingDay : Int
  TradingDay : Int
  ProductType : Int
  PriceType : Int
  OrderSourceType : Int
  TimeRule : List MarketStatus
  SendTime : Int
  DemoOrderId : String
  Status : Int
  MinLimitOrderVolume : Int
  MinMarketOrderVolume : Int
  UpperLimit : ℚ
  LowerLimit : ℚ
  deriving DecidableEq

/-- The zero value of `hubpb.DemoOrder`, as made by `new(hubpb.DemoOrder)`. -/
def DemoOrder.zero : DemoOrder :=
  { TaId := "", BuId := "", FrontId := 0, SessionId := 0, OrderRef := "", Exchange := "",
    Symbol := "", Product := "", Direction := 0, Offset := 0, Price := 0, Volume := 0,
    VolumeTraded := 0, VolumeCanceled := 0, PriceTick := 0, Multiple := 0,
    SendTradingDay := 0, TradingDay := 0, ProductType := 0, PriceType := 0,
    OrderSourceType := 0, TimeRule := [], SendTime := 0, DemoOrderId := "", Status := 0,
    MinLimitOrderVolume := 0, MinMarketOrderVolume := 0, UpperLimit := 0, LowerLimit := 0 }

/-- One depth level of a snapshot (an element of `mds.Depths`). -/
structure OrderBook where
  Bid : ℚ
  BidVolume : Int
  Ask : ℚ
  AskVolume : Int
  deriving DecidableEq

/-- The message `pb.MarketDataSnapshot`. -/
structure MarketDataSnapshot where
  Exchange : String
  Symbol : String
  TradingDay : Int
  Time : Int
  Price : ℚ
  Volume : Int
  High : ℚ
  Low : ℚ
  UpperLimit : ℚ
  LowerLimit : ℚ
  Depths : List OrderBook
  deriving DecidableEq

/-- The message `pb.Trade`. -/
structure Trade where
  Direction : Int
  Offset : Int
  ExchangeOrderId : String
  Price : ℚ
  Volume : Int
  Symbol : String
  TradedTime : Int
  TradedTradingDay : Int
  TradeType : Int
  TradeId : String
  deriving DecidableEq

/-- The zero value of `pb.Trade` (`var tr pb.Trade`). -/
def Trade.zero : Trade :=
  { Direction := 0, Offset := 0, ExchangeOrderId := "", Price := 0, Volume := 0, Symbol := "",
    TradedTime := 0, TradedTradingDay := 0, TradeType := 0, TradeId := "" }

/-! ## `isDone` and the session rule resolver -/

/-- The function `isDone`: `do.VolumeTraded+do.VolumeCanceled == do.Volume` on `int32`. -/
def isDone (o : DemoOrder) : Bool :=
  decide (add32 o.VolumeTraded o.VolumeCanceled = o.Volume)

/-- The scan of `getMarketStatus` for the time of day `t`: the first rule with
`t >= r.Time`, the zero rule when the scan ends. -/
def scanMarketStatus (t : Int) : List MarketStatus → MarketStatus
  | [] => MarketStatus.zero
  | r :: rest => if t ≥ r.Time then r else scanMarketStatus t rest

/-- The function `getMarketStatus`, the clock reading `now` being a parameter. -/
def getMarketStatus (rule : List MarketStatus) (now : Nat) : MarketStatus :=
  scanMarketStatus ((now : Int) % 86400) rule

/-- The day schedule of the specification's example, in the order it is given. -/
def daySchedule : List MarketStatus :=
  [⟨0, false, false⟩, ⟨32400, false, true⟩, ⟨54000, false, false⟩]

/-! ## The matching engine: `checkDemoOrderDone` -/

/-- A failure of the Go code at run time. -/
inductive Fault where
  /-- `mds.Depths[0]` on an empty slice (line 233). -/
  | indexOutOfRange
  /-- `order.Volume / minimumVolume` with `minimumVolume == 0` (line 361). -/
  | divideByZero
  /-- The bucket loop of lines 383-399 never ends. -/
  | diverges
  /-- `panic(err)` after a failed `proto.Marshal` (line 96). -/
  | marshalError
  deriving DecidableEq

/-- What the code takes from its surroundings: the enum values of the protobuf
package, the local time zone (offset east of UTC, in seconds, at an instant) and
the injected generator `getUID` (its result at the n-th call). -/
structure Ctx where
  K : PbEnums
  loc : Int → Int
  getUID : Nat → String

/-- The hour of `time.Unix(t, 0)` in the local zone (`p.Hour()`). -/
def localHour (loc : Int → Int) (t : Int) : Int := ((t + loc t) % 86400) / 3600

/-- The minute of `time.Unix(t, 0)` in the local zone (`p.Minute()`). -/
def localMinute (loc : Int → Int) (t : Int) : Int := ((t + loc t) % 3600) / 60

/-- The weekday of the instant `t` in the local zone (`Weekday()`): 0 is Sunday,
6 is Saturday; the first of January 1970 was a Thursday. -/
def weekday (loc : Int → Int) (t : Int) : Int := ((t + loc t) / 86400 + 4) % 7

/-- Lines 216-232: the checks made before the depth list is read. -/
def skipBeforeDepth (K : PbEnums) (now : Nat) (mds : MarketDataSnapshot) (o : DemoOrder) : Bool :=
  if o.SendTradingDay ≠ mds.TradingDay then true
  else if o.OrderSourceType = K.OrderSourceType_COMBINATION_DERIVED then true
  else if isDone o then true
  else if !(getMarketStatus o.TimeRule now).Matching then true
  else false

/-- Lines 233-260, `top` being `mds.Depths[0]`: the limit-lock guards and the
guards of the combination and plain branches. -/
def skipOnTop (K : PbEnums) (mds : MarketDataSnapshot) (o : DemoOrder) (top : OrderBook) : Bool :=
  if top.Bid > 0 ∧ top.Bid ≥ mds.UpperLimit ∧ o.Direction = K.DirectionType_LONG
      ∧ top.Bid < 1000000 then true
  else if top.Ask > 0 ∧ top.Ask ≤ mds.LowerLimit ∧ o.Direction = K.DirectionType_SHORT
      ∧ top.Ask < 1000000 then true
  else if o.ProductType = K.ProductType_COMBINATION then
    if mds.Depths.length = 0 then true
    else if top.Ask ≤ 0 ∨ top.Ask ≥ 9999999 ∨ top.Bid ≤ 0 ∨ top.Bid ≥ 99999999 then true
    else false
  else
    if o.Direction = K.DirectionType_LONG ∧ mds.Price > mds.UpperLimit - o.PriceTick then true
    else if o.Direction = K.DirectionType_SHORT ∧ mds.Price < mds.LowerLimit + o.PriceTick then true
    else if mds.Volume ≤ 0 then true
    else if mds.Price ≤ 0 ∨ mds.Price > 99999999 then true
    else false

/-- Lines 264-270: `ask` after the loop, `ask` being its value before the loop. -/
def scanAsk : List OrderBook → ℚ → ℚ
  | [], ask => ask
  | ob :: rest, _ => if ob.AskVolume > 0 then ob.Ask else scanAsk rest ob.Ask

/-- Lines 271-277: `bid` after the loop. -/
def scanBid : List OrderBook → ℚ → ℚ
  | [], bid => bid
  | ob :: rest, _ => if ob.BidVolume > 0 then ob.Bid else scanBid rest ob.Bid

/-- Lines 279-286: the minimum lot used to split a fill. -/
def minimumVolume (K : PbEnums) (o : DemoOrder) : Int :=
  let m := o.MinLimitOrderVolume
  let m := if o.Exchange = "SSE" ∨ o.Exchange = "SZE" then 100 else m
  if o.PriceType = K.OrderPriceType_MARKET_PRICE then o.MinMarketOrderVolume else m

/-- Line 283: `isMarketOrder := false`, never assigned again. -/
def isMarketOrder : Bool := false

/-- Lines 287-310: `(bTraded, tradedAveragePrice)` for the best ask and bid found. -/
def fillDecision (K : PbEnums) (mds : MarketDataSnapshot) (o : DemoOrder) (ask bid : ℚ) :
    Bool × ℚ :=
  if isMarketOrder then
    let p := if o.Direction = K.DirectionType_LONG then ask else bid
    let p := if p > o.UpperLimit ∨ p < o.LowerLimit then mds.Price else p
    (true, p)
  else if o.Direction = K.DirectionType_LONG then
    if o.Price ≥ ask - 0.000001 ∧ ask > 0 ∧ ask < 900000000 then (true, ask) else (false, 0)
  else if o.Direction = K.DirectionType_SHORT then
    if o.Price ≤ bid + 0.0000001 ∧ bid > 0 ∧ bid < 900000000 then (true, bid) else (false, 0)
  else (false, 0)

/-- Lines 311-333: `(bTraded, tradedAveragePrice, tradedTime)` after the adjustment
for "SSE" and "SZE". `time.Unix(x, 0).Add(d).Unix()` is `x + d`. -/
def venueAdjust (loc : Int → Int) (mds : MarketDataSnapshot) (o : DemoOrder)
    (bTraded : Bool) (price : ℚ) : Bool × ℚ × Int :=
  let ex := mds.Exchange
  if (ex = "SSE" ∨ ex = "SZE") ∧ bTraded = true then
    let delayed : Bool := decide (mds.Time - o.SendTime ≥ 1)
    let h := localHour loc mds.Time
    let m := localMinute loc mds.Time
    if h = 9 ∧ m ≥ 23 ∧ m ≤ 26 then
      (delayed, mds.Price, Int.tmod mds.Time 86400 * 86400 + (9 * 3600 + 25 * 60 + 1))
    else if mds.Exchange = "SZE" ∨ ex = "SSE" then
      if (h = 14 ∧ m ≥ 59) ∨ (h = 15 ∧ m ≤ 3) then
        (delayed, mds.Price, Int.tmod mds.Time 86400 * 86400 + (14 * 3600 + 59 * 60 + 59))
      else (delayed, price, mds.Time)
    else (delayed, price, mds.Time)
  else (bTraded, price, mds.Time)

/-- Lines 261-343: the traded price and traded time of a confirmed fill, `none`
when the order is not filled on this snapshot. -/
def resolveFill (K : PbEnums) (loc : Int → Int) (mds : MarketDataSnapshot) (o : DemoOrder) :
    Option (ℚ × Int) :=
  let ask := scanAsk mds.Depths 0
  let bid := scanBid mds.Depths 0
  let d := fillDecision K mds o ask bid
  let a := venueAdjust loc mds o d.1 d.2
  let bTraded := if a.2.1 > 99990000 then false else a.1
  if bTraded then
    let p := a.2.1
    let p := if p > mds.High ∧ mds.High > 0 ∧ mds.High < 99999999 then mds.High else p
    let p := if p < mds.Low ∧ mds.Low > 0 ∧ mds.Low < 99999999 then mds.Low else p
    some (p, a.2.2)
  else none

/-! ## The split of a fill into partial trades -/

/-- Lines 364-377: `lowerRange`, by venue and order volume. -/
def lowerRange (ex : String) (volume : Int) : Nat :=
  if ex = "SSE" ∨ ex = "SZE" then
    if volume > 1000 then 2 else if volume > 5000 then 3 else 1
  else if ex = "SHFE" ∨ ex = "CZCE" ∨ ex = "DCE" ∨ ex = "CFFEX" ∨ ex = "INE" then
    if volume > 10 then 2 else if volume > 30 then 3 else 1
  else 1

/-- Lines 384-395: one run of the inner `for i := range tradedVolumes`, from the
bucket at the head of the list; the result is the buckets, `nowT` and `rvLeft`
when the run ends (at the last bucket or at the `break`). -/
def fillRound : List Int → Nat → Int → List Int × Nat × Int
  | [], nowT, rvLeft => ([], nowT, rvLeft)
  | b :: rest, nowT, rvLeft =>
    let rv : Int := ((nowT % 3 : Nat) : Int)
    let rv := if rvLeft < rv then rvLeft else rv
    if rvLeft - rv ≤ 0 then ((b + rv) :: rest, nowT + 1, rvLeft - rv)
    else
      let r := fillRound rest (nowT + 1) (rvLeft - rv)
      ((b + rv) :: r.1, r.2.1, r.2.2)

/-- Lines 383-399: the outer `for`, run for at most `fuel` rounds; `none` when
`rvLeft` is still positive after `fuel` rounds. -/
def fillBuckets : Nat → List Int → Nat → Int → Option (List Int)
  | 0, _, _, _ => none
  | fuel + 1, tv, nowT, rvLeft =>
    let r := fillRound tv nowT rvLeft
    if r.2.2 ≤ 0 then some r.1 else fillBuckets fuel r.1 r.2.1 r.2.2

/-- Lines 361-402: the slice `tradedVolumes` before the trades are emitted, for
`minimumVolume ≠ 0`. The outer loop is given `3 * v + 3` rounds, which it never
uses up when there is a bucket (`fillBuckets_terminates`); `none` is a loop that
never ends. -/
def tradedVolumes (ex : String) (nowT : Nat) (volume minimumVolume : Int) : Option (List Int) :=
  let v := div32 volume minimumVolume
  let mod := mod32 volume minimumVolume
  let n := nowT % 4 + lowerRange ex volume
  match fillBuckets (3 * v.toNat + 3) (List.replicate n 0) nowT v with
  | none => none
  | some tv => some (if mod > 0 then tv ++ [mod] else tv)

/-- Lines 405-447: the trades sent on `chTrade` for the buckets, and the number of
calls of `getUID` made so far; `tr` is the trade prepared in lines 347-357 and
`uid` the number of calls of `getUID` before the loop. -/
def emitTrades (getUID : Nat → String) (isCombine : Bool) (tr : Trade)
    (volume minimumVolume : Int) : List Int → Nat → List Trade × Nat
  | [], uid => ([], uid)
  | b :: rest, uid =>
    if b > 0 then
      let vol := mul32 b minimumVolume
      let vol := if vol > volume then volume else vol
      if isCombine then emitTrades getUID isCombine tr volume minimumVolume rest uid
      else
        let r := emitTrades getUID isCombine tr volume minimumVolume rest (uid + 1)
        ({ tr with Volume := vol, TradeId := getUID uid } :: r.1, r.2)
    else emitTrades getUID isCombine tr volume minimumVolume rest uid

/-- What one call of `checkDemoOrderDone` leaves: the order (it is changed in
place), the messages sent on the two channels, the number of calls of `getUID`
made so far, and the fault that ended the call, if any. -/
structure MatchOutcome where
  order : DemoOrder
  sentOrders : List DemoOrder
  sentTrades : List Trade
  uid : Nat
  fault : Option Fault

/-- Lines 344-447: the effects of a confirmed fill at `price` and `tradedTime`. -/
def fillOrder (W : Ctx) (nowT : Nat) (mds : MarketDataSnapshot) (o : DemoOrder) (uid : Nat)
    (price : ℚ) (tradedTime : Int) : MatchOutcome :=
  let o1 : DemoOrder := { o with Status := W.K.OrderStatus_DONE }
  let ex := mds.Exchange
  let tr : Trade :=
    { Trade.zero with
      Direction := o1.Direction, ExchangeOrderId := o1.DemoOrderId, Price := price,
      Symbol := o1.Symbol, TradedTime := tradedTime,
      TradedTradingDay := if ex = "CZCE" then o1.TradingDay else mds.TradingDay,
      TradeType := W.K.TradeType_TT_NORMAL }
  let m := minimumVolume W.K o1
  if m = 0 then ⟨o1, [o1], [], uid, some Fault.divideByZero⟩
  else
    match tradedVolumes ex nowT o1.Volume m with
    | none => ⟨o1, [o1], [], uid, some Fault.diverges⟩
    | some tv =>
      let r := emitTrades W.getUID (decide (o1.ProductType = W.K.ProductType_COMBINATION)) tr
        o1.Volume m tv uid
      ⟨o1, [o1], r.1, r.2, none⟩

/-- The method `checkDemoOrderDone` for the order `o`, `now` being the clock and
`uid` the number of calls of `getUID` made before. -/
def checkDemoOrderDone (W : Ctx) (now : Nat) (mds : MarketDataSnapshot) (o : DemoOrder)
    (uid : Nat) : MatchOutcome :=
  if skipBeforeDepth W.K now mds o then ⟨o, [], [], uid, none⟩
  else
    match mds.Depths with
    | [] => ⟨o, [], [], uid, some Fault.indexOutOfRange⟩
    | top :: _ =>
      if skipOnTop W.K mds o top then ⟨o, [], [], uid, none⟩
      else
        match resolveFill W.K W.loc mds o with
        | none => ⟨o, [], [], uid, none⟩
        | some (price, tradedTime) => fillOrder W now mds o uid price tradedTime

/-- The fill `checkDemoOrderDone` decides on for an order: the traded price and
traded time when the order passes every check and is filled, `none` when the
call ends before (a skip, or the fault on an empty depth list). -/
def decidedFill (W : Ctx) (now : Nat) (mds : MarketDataSnapshot) (o : DemoOrder) :
    Option (ℚ × Int) :=
  if skipBeforeDepth W.K now mds o then none
  else
    match mds.Depths with
    | [] => none
    | top :: _ => if skipOnTop W.K mds o top then none else resolveFill W.K W.loc mds o

/-! ## The environment `Env` and its methods -/

/-- The struct `Env`: the order list, the two channels (the messages sent so
far, oldest first), the instrument and tick maps, and the number of calls of
`getUID` made so far. The order log `orderDB` belongs to the dispatch loop and
is modelled apart (`Store`). -/
structure Env where
  demoOrderList : List DemoOrder
  chDemoOrder : List DemoOrder
  chTrade : List Trade
  mapSymbol : String → Option Instrument
  mapTick : String → Option MarketDataSnapshot
  uid : Nat

/-- The environment of `NewDemoEnv` over an empty order log. -/
def Env.empty : Env :=
  { demoOrderList := [], chDemoOrder := [], chTrade := [], mapSymbol := fun _ => none,
    mapTick := fun _ => none, uid := 0 }

/-- The method `getInstrument`. -/
def getInstrument (e : Env) (instrumentID : String) : Option Instrument := e.mapSymbol instrumentID

/-- The method `SetInstrument`. -/
def SetInstrument (arr : List Instrument) (e : Env) : Env :=
  arr.foldl (fun e inst =>
    { e with mapSymbol := fun s => if s = inst.Symbol then some inst else e.mapSymbol s }) e

/-- The method `getTick`. -/
def getTick (e : Env) (symbol : String) : Option MarketDataSnapshot := e.mapTick symbol

/-- The method `PushTick`. -/
def PushTick (rtn : MarketDataSnapshot) (e : Env) : Env :=
  { e with mapTick := fun s => if s = rtn.Symbol then some rtn else e.mapTick s }

/-- The errors `InsertDemoOrder` returns, by their message. -/
inductive InsertError where
  /-- `errors.New("禁止重复报单")`: duplicate order. -/
  | duplicateOrder
  /-- `errors.New("[模拟]没有找到交易合约")`: the symbol is not registered. -/
  | unknownInstrument
  /-- `errors.New("当前状态禁止报单")`: entry is not permitted now; the session rule
  check and the weekend checks return this same message. -/
  | entryForbidden
  deriving DecidableEq

/-- What `InsertDemoOrder` leaves: the environment, the error returned (`none`
is `nil`), and the snapshot of the matching pass it started with `go`, if any. -/
structure InsertOutcome where
  env : Env
  err : Option InsertError
  spawned : Option MarketDataSnapshot

/-- Lines 150-171: the order built for a request. -/
def buildOrder (W : Ctx) (now : Nat) (req : ReqInsertOrder) (inst : Instrument) (uid : Nat) :
    DemoOrder :=
  { DemoOrder.zero with
    TaId := req.TaId, BuId := req.BuId, FrontId := req.FrontId, SessionId := req.SessionId,
    OrderRef := req.OrderRef, Exchange := req.Exchange, Symbol := req.Symbol,
    Direction := req.Direction, Offset := req.Offset, Price := req.Price, Volume := req.Volume,
    Product := inst.Product, PriceTick := inst.PriceTick, Multiple := inst.Multiple,
    SendTradingDay := inst.TradingDay, ProductType := inst.ProductType,
    PriceType := req.PriceType, TimeRule := inst.TimeRule, SendTime := (now : Int),
    DemoOrderId := W.getUID uid }

/-- The test of line 126 on one order of the list. -/
def sameKey (req : ReqInsertOrder) (o : DemoOrder) : Bool :=
  decide (o.FrontId = req.FrontId ∧ o.SessionId = req.SessionId ∧ o.OrderRef = req.OrderRef)

/-- The loop of lines 125-129: some order of the list has the key of the request. -/
def hasKey (l : List DemoOrder) (req : ReqInsertOrder) : Bool := l.any (sameKey req)

/-- The method `InsertDemoOrder`, `now` being the clock. -/
def InsertDemoOrder (W : Ctx) (now : Nat) (req : ReqInsertOrder) (e : Env) : InsertOutcome :=
  if hasKey e.demoOrderList req then ⟨e, some InsertError.duplicateOrder, none⟩
  else
    match getInstrument e req.Symbol with
    | none => ⟨e, some InsertError.unknownInstrument, none⟩
    | some inst =>
      if !(getMarketStatus inst.TimeRule now).Send then ⟨e, some InsertError.entryForbidden, none⟩
      else if weekday W.loc now = 0 then ⟨e, some InsertError.entryForbidden, none⟩
      else if weekday W.loc now = 6 ∧ now % 86400 > 3 * 3600 then
        ⟨e, some InsertError.entryForbidden, none⟩
      else
        let order := buildOrder W now req inst e.uid
        ⟨{ e with chDemoOrder := e.chDemoOrder ++ [order],
                  demoOrderList := e.demoOrderList ++ [order], uid := e.uid + 1 },
          none, getTick e req.Symbol⟩

/-- What the loop of `CheckDemoTrade` leaves: the orders of the list, the
messages sent on the two channels, the number of calls of `getUID` made so far,
and the fault that ended the loop, if any. -/
structure PassOutcome where
  orders : List DemoOrder
  sentOrders : List DemoOrder
  sentTrades : List Trade
  uid : Nat
  fault : Option Fault

/-- Lines 207-211: the matching pass over the orders of the list. The loop stops
at the first fault and leaves the orders behind it as they are. -/
def checkOrders (W : Ctx) (now : Nat) (mds : MarketDataSnapshot) :
    List DemoOrder → Nat → PassOutcome
  | [], uid => ⟨[], [], [], uid, none⟩
  | o :: rest, uid =>
    if mds.Exchange = o.Exchange ∧ mds.Symbol = o.Symbol then
      let r := checkDemoOrderDone W now mds o uid
      match r.fault with
      | some f => ⟨r.order :: rest, r.sentOrders, r.sentTrades, r.uid, some f⟩
      | none =>
        let p := checkOrders W now mds rest r.uid
        ⟨r.order :: p.orders, r.sentOrders ++ p.sentOrders, r.sentTrades ++ p.sentTrades,
          p.uid, p.fault⟩
    else
      let p := checkOrders W now mds rest uid
      ⟨o :: p.orders, p.sentOrders, p.sentTrades, p.uid, p.fault⟩

/-- The method `CheckDemoTrade`, `now` being the clock: the environment it
leaves and the fault that ended it, if any. -/
def CheckDemoTrade (W : Ctx) (now : Nat) (mds : MarketDataSnapshot) (e : Env) :
    Env × Option Fault :=
  let p := checkOrders W now mds e.demoOrderList e.uid
  ({ e with demoOrderList := p.orders, chDemoOrder := e.chDemoOrder ++ p.sentOrders,
            chTrade := e.chTrade ++ p.sentTrades, uid := p.uid }, p.fault)

/-- The operations on an environment, one step each: a later environment is
reached through any number of them. -/
inductive Step (W : Ctx) : Env → Env → Prop where
  | insert (now : Nat) (req : ReqInsertOrder) (e : Env) :
      Step W e (InsertDemoOrder W now req e).env
  | setInstrument (arr : List Instrument) (e : Env) : Step W e (SetInstrument arr e)
  | pushTick (rtn : MarketDataSnapshot) (e : Env) : Step W e (PushTick rtn e)
  | checkDemoTrade (now : Nat) (mds : MarketDataSnapshot) (e : Env) :
      Step W e (CheckDemoTrade W now mds e).1

/-- The environments reached from `e` by a sequence of operations. -/
def Reaches (W : Ctx) (e e' : Env) : Prop := Relation.ReflTransGen (Step W) e e'

/-! ## The order log: recovery at startup and the dispatch loop -/

/-- The value of a record of the order log, as bytes. -/
abbrev Bytes := List Nat

/-- The order log `orderDB`: its records in the order the iterator visits them. -/
abbrev Store := List (String × Bytes)

/-- The lookup `Get` of the store. -/
def Store.get (db : Store) (k : String) : Option Bytes :=
  match db.find? (fun r => r.1 = k) with
  | some r => some r.2
  | none => none

/-- The operation `Delete` of the store. -/
def Store.delete (db : Store) (k : String) : Store := db.filter (fun r => r.1 ≠ k)

/-- The operation `Put` of the store: the value at `k` is replaced, a new key
is put before the first greater key. -/
def Store.put (k : String) (v : Bytes) : Store → Store
  | [] => [(k, v)]
  | r :: rest =>
    if r.1 = k then (k, v) :: rest
    else if k < r.1 then (k, v) :: r :: rest.filter (fun x => x.1 ≠ k)
    else r :: Store.put k v rest

/-- Lines 68-81 of `NewDemoEnv`: the scan over the records of the log (the
iterator reads the content the log had when it was made), `db` being the log
and `l` the order list so far. `unmarshal` is `proto.Unmarshal` into a fresh
`hubpb.DemoOrder`, `none` when it returns an error. -/
def recoverLoop (unmarshal : Bytes → Option DemoOrder) :
    List (String × Bytes) → Store → List DemoOrder → Store × List DemoOrder
  | [], db, l => (db, l)
  | r :: rest, db, l =>
    match unmarshal r.2 with
    | none => recoverLoop unmarshal rest db l
    | some o =>
      if isDone o then recoverLoop unmarshal rest (db.delete r.1) l
      else recoverLoop unmarshal rest db (l ++ [o])

/-- The startup scan of `NewDemoEnv` over the log `db`: the log and the order
list it leaves. -/
def recoverOrders (unmarshal : Bytes → Option DemoOrder) (db : Store) : Store × List DemoOrder :=
  recoverLoop unmarshal db db []

/-- The key of line 89: `fmt.Sprintf("%d-%d-%s", do.FrontId, do.SessionId, do.OrderRef)`. -/
def orderKey (o : DemoOrder) : String :=
  toString o.FrontId ++ "-" ++ toString o.SessionId ++ "-" ++ o.OrderRef

/-- The state the dispatch loop works on: the order log and the calls made of
the two callbacks, oldest first. -/
structure Dispatch where
  orderDB : Store
  handledOrders : List DemoOrder
  handledTrades : List Trade

/-- Lines 88-101: the dispatch of one message of `chDemoOrder`. `marshal` is
`proto.Marshal`, `none` when it returns an error. -/
def dispatchOrder (marshal : DemoOrder → Option Bytes) (o : DemoOrder) (d : Dispatch) :
    Dispatch × Option Fault :=
  let key := orderKey o
  if isDone o then
    ({ d with orderDB := d.orderDB.delete key, handledOrders := d.handledOrders ++ [o] }, none)
  else
    match marshal o with
    | none => (d, some Fault.marshalError)
    | some b =>
      ({ d with orderDB := Store.put key b d.orderDB, handledOrders := d.handledOrders ++ [o] },
        none)

/-- Lines 102-104: the dispatch of one message of `chTrade`. -/
def dispatchTrade (tr : Trade) (d : Dispatch) : Dispatch × Option Fault :=
  ({ d with handledTrades := d.handledTrades ++ [tr] }, none)

/-- A bound on the steps the bucket loop still makes from the clock `nowT` with
`rvLeft` lots left: it goes down at every step that leaves lots. -/
def stepsLeft (nowT : Nat) (rvLeft : Int) : Nat := 3 * rvLeft.toNat + (2 - nowT % 3)

/-- A record of the log that decodes to an order satisfying `isDone`. -/
def isDoneRecord (unmarshal : Bytes → Option DemoOrder) (r : String × Bytes) : Bool :=
  match unmarshal r.2 with
  | some o => isDone o
  | none => false

/-- The order a record of the log decodes to when it does not satisfy `isDone`. -/
def openOrder (unmarshal : Bytes → Option DemoOrder) (r : String × Bytes) : Option DemoOrder :=
  match unmarshal r.2 with
  | some o => if isDone o then none else some o
  | none => none

/-! ## Concrete inputs

The inputs at which the statements below are evaluated. -/

/-- An assignment of the enum values: the two directions differ, and the zero
value of a field is none of the constants. -/
def pbEnums : PbEnums :=
  { ProductType_COMBINATION := 2, OrderSourceType_COMBINATION_DERIVED := 1,
    DirectionType_LONG := 1, DirectionType_SHORT := 2, OrderPriceType_MARKET_PRICE := 1,
    OrderStatus_DONE := 5, TradeType_TT_NORMAL := 1 }

/-- The surroundings of the examples: the zone is UTC+8 and the n-th identifier
is the numeral of n. -/
def ctx : Ctx := ⟨pbEnums, fun _ => 28800, fun n => toString n⟩

/-- Monday 4 September 2023, 10:00:00 at UTC+8. -/
def monday10h : Nat := 1693792800

/-- Saturday 9 September 2023, 02:00:00 at UTC+8, which is 18:00:00 UTC of the
Friday: 64800 seconds after midnight UTC. -/
def saturday2h : Nat := 1694196000

/-- Saturday 9 September 2023, 09:00:00 at UTC+8: 3600 seconds after midnight UTC. -/
def saturday9h : Nat := 1694221200

/-- Sunday 10 September 2023, 10:00:00 at UTC+8. -/
def sunday10h : Nat := 1694311200

/-- The instrument "IF2309" with the single session rule of the scenario. -/
def instIF : Instrument :=
  { Symbol := "IF2309", Product := "IF", PriceTick := 0.2, Multiple := 300,
    TradingDay := 20230904, ProductType := 0, TimeRule := [⟨0, true, true⟩] }

/-- A long limit order for "IF2309" on "CFFEX": price 4000.0, volume 300. -/
def reqIF : ReqInsertOrder :=
  { TaId := "ta", BuId := "bu", FrontId := 1, SessionId := 1, OrderRef := "1",
    Exchange := "CFFEX", Symbol := "IF2309", Product := "", Direction := 1, Offset := 0,
    Price := 4000, Volume := 300, PriceType := 0 }

/-- A tick for "IF2309": best ask 3999.5 with volume 2, limits 4500/3500, last
price 4000 with volume 10, one second after `monday10h`. -/
def tickIF : MarketDataSnapshot :=
  { Exchange := "CFFEX", Symbol := "IF2309", TradingDay := 20230904, Time := 1693792801,
    Price := 4000, Volume := 10, High := 4005, Low := 3995, UpperLimit := 4500,
    LowerLimit := 3500, Depths := [⟨3999, 3, 3999.5, 2⟩] }

/-- The book with "IF2309" registered and no order. -/
def envIF : Env := SetInstrument [instIF] Env.empty

/-- The stock "600000" of "SSE", open for entry and matching all day. -/
def instStock : Instrument :=
  { Symbol := "600000", Product := "", PriceTick := 0.01, Multiple := 1,
    TradingDay := 20230904, ProductType := 0, TimeRule := [⟨0, true, true⟩] }

/-- A long limit order for "600000" on "SSE" at price 10 with the given volume. -/
def reqStock (volume : Int) : ReqInsertOrder :=
  { TaId := "ta", BuId := "bu", FrontId := 1, SessionId := 1, OrderRef := "1",
    Exchange := "SSE", Symbol := "600000", Product := "", Direction := 1, Offset := 0,
    Price := 10, Volume := volume, PriceType := 0 }

/-- A tick for "600000" at the given time: best ask 10 with volume 5, limits 11/9,
last price 10 with volume 7, no daily range recorded. -/
def tickStock (time : Int) : MarketDataSnapshot :=
  { Exchange := "SSE", Symbol := "600000", TradingDay := 20230904, Time := time,
    Price := 10, Volume := 7, High := 0, Low := 0, UpperLimit := 11, LowerLimit := 9,
    Depths := [⟨9.99, 5, 10, 5⟩] }

/-- The book after the stock is registered and an order of the given volume is
submitted at `monday10h`. -/
def envStock (volume : Int) : Env :=
  (InsertDemoOrder ctx monday10h (reqStock volume) (SetInstrument [instStock] Env.empty)).env

/-- A decoder for the examples: three bytes are the traded, canceled and total
volume of an order, anything else does not decode. -/
def unmarshal3 : Bytes → Option DemoOrder
  | [t, c, v] => some { DemoOrder.zero with VolumeTraded := t, VolumeCanceled := c, Volume := v }
  | _ => none

/-- An encoder for the examples, the inverse of `unmarshal3`. -/
def marshal3 (o : DemoOrder) : Option Bytes :=
  some [o.VolumeTraded.toNat, o.VolumeCanceled.toNat, o.Volume.toNat]

/-- A log with one done record (2 + 1 = 3) and one open record (1 + 0 ≠ 3). -/
def storeTwo : Store := [("1-1-a", [2, 1, 3]), ("1-1-b", [1, 0, 3])]

/-- An open order with a key of its own, for the dispatch loop. -/
def orderOpen : DemoOrder :=
  { DemoOrder.zero with FrontId := 1, SessionId := 1, OrderRef := "c", VolumeTraded := 1, Volume := 4 }

/-- A request with the key of `reqStock` and nothing else in common with it: an
unregistered symbol, another exchange, direction and price. -/
def reqSameKey : ReqInsertOrder :=
  { TaId := "tb", BuId := "bv", FrontId := 1, SessionId := 1, OrderRef := "1",
    Exchange := "DCE", Symbol := "m2401", Product := "", Direction := 2, Offset := 1,
    Price := 3900, Volume := 5, PriceType := 1 }

/-- A short limit order for "600000" on "SSE", for 200 shares at the given price. -/
def reqShort (price : ℚ) : ReqInsertOrder :=
  { TaId := "ta", BuId := "bu", FrontId := 1, SessionId := 1, OrderRef := "2",
    Exchange := "SSE", Symbol := "600000", Product := "", Direction := 2, Offset := 0,
    Price := price, Volume := 200, PriceType := 0 }

/-- A long limit order for "600000" on "SSE", for 200 shares at the given price. -/
def reqLong (price : ℚ) : ReqInsertOrder :=
  { TaId := "ta", BuId := "bu", FrontId := 1, SessionId := 1, OrderRef := "3",
    Exchange := "SSE", Symbol := "600000", Product := "", Direction := 1, Offset := 0,
    Price := price, Volume := 200, PriceType := 0 }

/-- A market-price order for "600000" on "SSE", for 200 shares. -/
def reqMarket : ReqInsertOrder :=
  { TaId := "ta", BuId := "bu", FrontId := 1, SessionId := 1, OrderRef := "4",
    Exchange := "SSE", Symbol := "600000", Product := "", Direction := 1, Offset := 0,
    Price := 10, Volume := 200, PriceType := 1 }

/-- Two depth levels without volume on either side. -/
def depthsNoVolume : List OrderBook := [⟨9.99, 0, 10, 0⟩, ⟨9.98, 0, 10.01, 0⟩]

/-- Two depth levels, the second one with volume on both sides. -/
def depthsSecondLevel : List OrderBook := [⟨9.99, 0, 10, 0⟩, ⟨9.98, 3, 10.01, 4⟩]

/-- Midnight UTC of Monday 4 September 2023. -/
def mondayMidnight : Int := 1693785600

/-- Monday 4 September 2023, 09:23:20 at UTC+8. -/
def monday0923 : Nat := 1693790600

/-- Monday 4 September 2023, 09:24:00 at UTC+8, in the opening auction window:
5040 seconds after midnight UTC. -/
def monday0924 : Nat := 1693790640

/-- Monday 4 September 2023, 14:59:30 at UTC+8, in the closing window: 25170
seconds after midnight UTC. -/
def monday1459 : Nat := 1693810770

/-- The stock "600000" with matching allowed from 3600 seconds after midnight
UTC on, and not before. -/
def instLate : Instrument :=
  { Symbol := "600000", Product := "", PriceTick := 0.01, Multiple := 1,
    TradingDay := 20230904, ProductType := 0, TimeRule := [⟨3600, true, true⟩] }

/-- 100 seconds after midnight UTC of Tuesday 5 September 2023. -/
def tuesday0h : Nat := 1693872100

/-- An open long limit order for a combination instrument of "DCE": price 100,
volume 3, minimum lot 1. -/
def orderCombo : DemoOrder :=
  { DemoOrder.zero with
    Exchange := "DCE", Symbol := "SP m2401&m2405", Direction := 1, Price := 100, Volume := 3,
    ProductType := 2, SendTradingDay := 20230904, TimeRule := [⟨0, true, true⟩],
    SendTime := 1693792800, DemoOrderId := "7", MinLimitOrderVolume := 1 }

/-- A tick for the combination instrument: bid 98 and ask 99, four lots each. -/
def tickCombo : MarketDataSnapshot :=
  { Exchange := "DCE", Symbol := "SP m2401&m2405", TradingDay := 20230904, Time := 1693792801,
    Price := 0, Volume := 0, High := 0, Low := 0, UpperLimit := 500, LowerLimit := -500,
    Depths := [⟨98, 4, 99, 4⟩] }

/-- The stock tick with the daily range 9.90 to 9.95 recorded. -/
def tickStockRange (time : Int) : MarketDataSnapshot :=
  { Exchange := "SSE", Symbol := "600000", TradingDay := 20230904, Time := time,
    Price := 10, Volume := 7, High := 9.95, Low := 9.9, UpperLimit := 11, LowerLimit := 9,
    Depths := [⟨9.99, 5, 10, 5⟩] }

/-- The stock tick without any depth level. -/
def tickStockNoDepth (time : Int) : MarketDataSnapshot :=
  { Exchange := "SSE", Symbol := "600000", TradingDay := 20230904, Time := time,
    Price := 10, Volume := 7, High := 0, Low := 0, UpperLimit := 11, LowerLimit := 9,
    Depths := [] }

/-! # Properties -/

/-! ## The session rule resolver -/

theorem scanMarketStatus_first (t : Int) (rule : List MarketStatus) :
    (∃ pre r post, rule = pre ++ r :: post ∧ (∀ x ∈ pre, ¬ x.Time ≤ t) ∧ r.Time ≤ t
        ∧ scanMarketStatus t rule = r)
    ∨ ((∀ x ∈ rule, ¬ x.Time ≤ t) ∧ scanMarketStatus t rule = MarketStatus.zero) := by
  induction rule with
  | nil => right; simp [scanMarketStatus]
  | cons r rest ih =>
    by_cases h : r.Time ≤ t
    · left
      exact ⟨[], r, rest, rfl, by simp, h, by simp [scanMarketStatus, h]⟩
    · have hs : scanMarketStatus t (r :: rest) = scanMarketStatus t rest := by
        simp [scanMarketStatus, h]
      rcases ih with ⟨pre, r', post, he, hpre, hr, hres⟩ | ⟨hall, hres⟩
      · left
        refine ⟨r :: pre, r', post, by simp [he], ?_, hr, by rw [hs, hres]⟩
        intro x hx
        rcases List.mem_cons.1 hx with rfl | hx
        · exact h
        · exact hpre x hx
      · right
        refine ⟨?_, by rw [hs, hres]⟩
        intro x hx
        rcases List.mem_cons.1 hx with rfl | hx
        · exact h
        · exact hall x hx

/-- C6. `getMarketStatus` returns the first rule of the list, in the order given,
whose threshold `Time` is at most `now mod 86400`: the rules before it all have a
greater threshold. When no rule of the list qualifies (the empty list included)
it returns the zero rule, whose `Send` and `Matching` flags are both false. -/
theorem getMarketStatus_first_match (rule : List MarketStatus) (now : Nat) :
    (∃ pre r post, rule = pre ++ r :: post
        ∧ (∀ x ∈ pre, ¬ x.Time ≤ (now : Int) % 86400) ∧ r.Time ≤ (now : Int) % 86400
        ∧ getMarketStatus rule now = r)
    ∨ ((∀ x ∈ rule, ¬ x.Time ≤ (now : Int) % 86400)
        ∧ getMarketStatus rule now = MarketStatus.zero
        ∧ MarketStatus.zero.Send = false ∧ MarketStatus.zero.Matching = false) := by
  rcases scanMarketStatus_first ((now : Int) % 86400) rule with h | ⟨h1, h2⟩
  · exact Or.inl h
  · exact Or.inr ⟨h1, h2, rfl, rfl⟩

/-- C7, as stated, fails: at 09:30:00 (34200 s) the resolver returns the first
rule of the day schedule, whose matching flag is false, not the second rule. -/
theorem getMarketStatus_daySchedule_0930_not_second :
    getMarketStatus daySchedule 34200 = ⟨0, false, false⟩
      ∧ getMarketStatus daySchedule 34200 ≠ ⟨32400, false, true⟩
      ∧ (getMarketStatus daySchedule 34200).Matching = false := by
  decide

theorem scanMarketStatus_descending (t : Int) (rule : List MarketStatus)
    (hsorted : rule.Pairwise (fun a b => a.Time ≥ b.Time))
    (r : MarketStatus) (hr : r ∈ rule) (hrt : r.Time ≤ t) :
    scanMarketStatus t rule ∈ rule ∧ (scanMarketStatus t rule).Time ≤ t
      ∧ r.Time ≤ (scanMarketStatus t rule).Time := by
  induction rule with
  | nil => simp at hr
  | cons a rest ih =>
    rw [List.pairwise_cons] at hsorted
    by_cases h : a.Time ≤ t
    · have hs : scanMarketStatus t (a :: rest) = a := by simp [scanMarketStatus, h]
      rw [hs]
      refine ⟨by simp, h, ?_⟩
      rcases List.mem_cons.1 hr with rfl | hr
      · exact le_refl _
      · exact hsorted.1 r hr
    · have hs : scanMarketStatus t (a :: rest) = scanMarketStatus t rest := by
        simp [scanMarketStatus, h]
      rw [hs]
      rcases List.mem_cons.1 hr with rfl | hr
      · exact absurd hrt h
      · obtain ⟨h1, h2, h3⟩ := ih hsorted.2 hr
        exact ⟨List.mem_cons_of_mem _ h1, h2, h3⟩

/-- C7, amended. On the day schedule in the order given, the resolver returns
the first rule (matching false) at 09:00:00, at 09:30:00 and at 16:00:00. For a
rule list sorted by descending threshold, the resolver returns the rule of the
time band that contains now: a rule of the list whose threshold is at most
`now mod 86400` and at least the threshold of every such rule. -/
theorem getMarketStatus_band_of_descending :
    (getMarketStatus daySchedule 32400 = ⟨0, false, false⟩
      ∧ getMarketStatus daySchedule 34200 = ⟨0, false, false⟩
      ∧ getMarketStatus daySchedule 57600 = ⟨0, false, false⟩)
    ∧ ∀ (rule : List MarketStatus) (now : Nat),
        rule.Pairwise (fun a b => a.Time ≥ b.Time) →
        ∀ r ∈ rule, r.Time ≤ (now : Int) % 86400 →
          getMarketStatus rule now ∈ rule
            ∧ (getMarketStatus rule now).Time ≤ (now : Int) % 86400
            ∧ r.Time ≤ (getMarketStatus rule now).Time := by
  refine ⟨by decide, ?_⟩
  intro rule now hsorted r hr hrt
  exact scanMarketStatus_descending _ rule hsorted r hr hrt

/-- The amended C7 at the day schedule written in descending order, at 09:30:00:
the rule returned is the one of 09:00:00, the band that contains 09:30:00. -/
theorem getMarketStatus_band_of_descending_witness :
    getMarketStatus daySchedule.reverse 34200 ∈ daySchedule.reverse
      ∧ (getMarketStatus daySchedule.reverse 34200).Time ≤ ((34200 : Nat) : Int) % 86400
      ∧ (32400 : Int) ≤ (getMarketStatus daySchedule.reverse 34200).Time :=
  getMarketStatus_band_of_descending.2 daySchedule.reverse 34200 (by decide)
    ⟨32400, false, true⟩ (by decide) (by decide)

/-! ## Submission -/

/-- C5. For a request that passes the duplicate, the unknown-instrument and the
entry-permission checks of `InsertDemoOrder`: on a Sunday it is rejected with
the market-closed error; on a Saturday it is rejected with that error if and
only if `now mod 86400 > 10800` and accepted otherwise; on every other weekday
it is accepted. -/
theorem InsertDemoOrder_weekend_gate (W : Ctx) (now : Nat) (req : ReqInsertOrder) (e : Env)
    (inst : Instrument)
    (hdup : hasKey e.demoOrderList req = false)
    (hinst : getInstrument e req.Symbol = some inst)
    (hsend : (getMarketStatus inst.TimeRule now).Send = true) :
    (weekday W.loc now = 0 →
        (InsertDemoOrder W now req e).err = some InsertError.entryForbidden)
    ∧ (weekday W.loc now = 6 →
        (((InsertDemoOrder W now req e).err = some InsertError.entryForbidden
            ↔ now % 86400 > 10800)
          ∧ ((InsertDemoOrder W now req e).err = none ↔ ¬ now % 86400 > 10800)))
    ∧ (weekday W.loc now ≠ 0 → weekday W.loc now ≠ 6 →
        (InsertDemoOrder W now req e).err = none) := by
  refine ⟨?_, ?_, ?_⟩
  · intro hwd
    simp [InsertDemoOrder, hdup, hinst, hsend, hwd]
  · intro hwd
    by_cases ht : now % 86400 > 10800
    · simp [InsertDemoOrder, hdup, hinst, hsend, hwd, ht]
    · simp [InsertDemoOrder, hdup, hinst, hsend, hwd, ht]
  · intro h0 h6
    simp [InsertDemoOrder, hdup, hinst, hsend, h0, h6]

/-- C5 at the "IF2309" order submitted to the empty book on a Saturday, 64800
seconds after midnight UTC. -/
theorem InsertDemoOrder_weekend_gate_witness :
    (weekday ctx.loc saturday2h = 0 →
        (InsertDemoOrder ctx saturday2h reqIF envIF).err = some InsertError.entryForbidden)
    ∧ (weekday ctx.loc saturday2h = 6 →
        (((InsertDemoOrder ctx saturday2h reqIF envIF).err = some InsertError.entryForbidden
            ↔ saturday2h % 86400 > 10800)
          ∧ ((InsertDemoOrder ctx saturday2h reqIF envIF).err = none
            ↔ ¬ saturday2h % 86400 > 10800)))
    ∧ (weekday ctx.loc saturday2h ≠ 0 → weekday ctx.loc saturday2h ≠ 6 →
        (InsertDemoOrder ctx saturday2h reqIF envIF).err = none) :=
  InsertDemoOrder_weekend_gate ctx saturday2h reqIF envIF instIF (by decide) rfl (by decide)

theorem fillOrder_order (W : Ctx) (nowT : Nat) (mds : MarketDataSnapshot) (o : DemoOrder)
    (uid : Nat) (price : ℚ) (tradedTime : Int) :
    (fillOrder W nowT mds o uid price tradedTime).order
      = { o with Status := W.K.OrderStatus_DONE } := by
  unfold fillOrder
  dsimp only
  split
  · rfl
  · split <;> rfl

theorem checkDemoOrderDone_order (W : Ctx) (now : Nat) (mds : MarketDataSnapshot) (o : DemoOrder)
    (uid : Nat) :
    (checkDemoOrderDone W now mds o uid).order = o
      ∨ (checkDemoOrderDone W now mds o uid).order = { o with Status := W.K.OrderStatus_DONE } := by
  unfold checkDemoOrderDone
  split
  · exact Or.inl rfl
  · split
    · exact Or.inl rfl
    · split
      · exact Or.inl rfl
      · split
        · exact Or.inl rfl
        · exact Or.inr (fillOrder_order _ _ _ _ _ _ _)

theorem hasKey_eq_any (l : List DemoOrder) (req : ReqInsertOrder) :
    hasKey l req = l.any (sameKey req) := rfl

theorem sameKey_checkDemoOrderDone (W : Ctx) (now : Nat) (mds : MarketDataSnapshot)
    (o : DemoOrder) (uid : Nat) (req : ReqInsertOrder) :
    sameKey req (checkDemoOrderDone W now mds o uid).order = sameKey req o := by
  rcases checkDemoOrderDone_order W now mds o uid with h | h <;> rw [h]
  rfl

theorem hasKey_checkOrders (W : Ctx) (now : Nat) (mds : MarketDataSnapshot)
    (req : ReqInsertOrder) (l : List DemoOrder) (uid : Nat) :
    hasKey (checkOrders W now mds l uid).orders req = hasKey l req := by
  induction l generalizing uid with
  | nil => rfl
  | cons o rest ih =>
    unfold checkOrders
    split
    · dsimp only
      split
      · simp only [hasKey_eq_any, List.any_cons, sameKey_checkDemoOrderDone]
      · simp only [hasKey_eq_any, List.any_cons, sameKey_checkDemoOrderDone]
        rw [← hasKey_eq_any, ← hasKey_eq_any, ih]
    · simp only [hasKey_eq_any, List.any_cons]
      rw [← hasKey_eq_any, ← hasKey_eq_any, ih]

theorem SetInstrument_demoOrderList (arr : List Instrument) (e : Env) :
    (SetInstrument arr e).demoOrderList = e.demoOrderList := by
  unfold SetInstrument
  induction arr generalizing e with
  | nil => rfl
  | cons a rest ih => rw [List.foldl_cons, ih]

theorem hasKey_InsertDemoOrder (W : Ctx) (now : Nat) (req req' : ReqInsertOrder) (e : Env)
    (h : hasKey e.demoOrderList req' = true) :
    hasKey (InsertDemoOrder W now req e).env.demoOrderList req' = true := by
  unfold InsertDemoOrder
  split
  · exact h
  · split
    · exact h
    · split
      · exact h
      · split
        · exact h
        · split
          · exact h
          · simp only [hasKey_eq_any, List.any_append] at h ⊢
            simp [h]

theorem hasKey_step (W : Ctx) (req : ReqInsertOrder) (e e' : Env) (hs : Step W e e')
    (h : hasKey e.demoOrderList req = true) : hasKey e'.demoOrderList req = true := by
  cases hs with
  | insert now r => exact hasKey_InsertDemoOrder W now r req e h
  | setInstrument arr => rw [SetInstrument_demoOrderList]; exact h
  | pushTick rtn => exact h
  | checkDemoTrade now mds =>
    show hasKey (checkOrders W now mds e.demoOrderList e.uid).orders req = true
    rw [hasKey_checkOrders]; exact h

theorem hasKey_reaches (W : Ctx) (req : ReqInsertOrder) (e e' : Env) (hr : Reaches W e e')
    (h : hasKey e.demoOrderList req = true) : hasKey e'.demoOrderList req = true := by
  induction hr with
  | refl => exact h
  | tail _ hs ih => exact hasKey_step W req _ _ hs ih

theorem InsertDemoOrder_accepted_list (W : Ctx) (now : Nat) (req : ReqInsertOrder) (e : Env)
    (hacc : (InsertDemoOrder W now req e).err = none) :
    ∃ inst, (InsertDemoOrder W now req e).env.demoOrderList
      = e.demoOrderList ++ [buildOrder W now req inst e.uid] := by
  revert hacc
  unfold InsertDemoOrder
  split
  · intro h; simp at h
  · split
    · intro h; simp at h
    · split
      · intro h; simp at h
      · split
        · intro h; simp at h
        · split
          · intro h; simp at h
          · intro _; exact ⟨_, rfl⟩

theorem hasKey_of_accepted (W : Ctx) (now : Nat) (req req' : ReqInsertOrder) (e : Env)
    (hacc : (InsertDemoOrder W now req e).err = none)
    (hkey : req'.FrontId = req.FrontId ∧ req'.SessionId = req.SessionId
      ∧ req'.OrderRef = req.OrderRef) :
    hasKey (InsertDemoOrder W now req e).env.demoOrderList req' = true := by
  obtain ⟨inst, h⟩ := InsertDemoOrder_accepted_list W now req e hacc
  rw [h]
  simp [hasKey, sameKey, buildOrder, hkey.1, hkey.2.1, hkey.2.2]

/-- C4. Once `InsertDemoOrder` has accepted a request, in every environment
reached from there by submissions, instrument and tick updates and matching
passes, `InsertDemoOrder` of any request with the same `FrontId`, `SessionId`
and `OrderRef`, at any time, returns the duplicate-order error and leaves the
environment, the order list included, as it is. -/
theorem InsertDemoOrder_duplicate_rejected (W : Ctx) (e e' : Env) (now : Nat)
    (req : ReqInsertOrder)
    (hacc : (InsertDemoOrder W now req e).err = none)
    (hreach : Reaches W (InsertDemoOrder W now req e).env e')
    (now' : Nat) (req' : ReqInsertOrder)
    (hkey : req'.FrontId = req.FrontId ∧ req'.SessionId = req.SessionId
      ∧ req'.OrderRef = req.OrderRef) :
    (InsertDemoOrder W now' req' e').err = some InsertError.duplicateOrder
      ∧ (InsertDemoOrder W now' req' e').env = e'
      ∧ (InsertDemoOrder W now' req' e').env.demoOrderList = e'.demoOrderList := by
  have h := hasKey_reaches W req' _ e' hreach (hasKey_of_accepted W now req req' e hacc hkey)
  simp [InsertDemoOrder, h]

/-- C4 at the stock order: accepted on Monday, then filled by a matching pass;
a request with the same key for an unregistered symbol, submitted on Sunday, is
a duplicate. -/
theorem InsertDemoOrder_duplicate_rejected_witness :
    (InsertDemoOrder ctx sunday10h reqSameKey
        (CheckDemoTrade ctx (monday10h + 2) (tickStock 1693792801) (envStock 200)).1).err
      = some InsertError.duplicateOrder
    ∧ (InsertDemoOrder ctx sunday10h reqSameKey
        (CheckDemoTrade ctx (monday10h + 2) (tickStock 1693792801) (envStock 200)).1).env
      = (CheckDemoTrade ctx (monday10h + 2) (tickStock 1693792801) (envStock 200)).1
    ∧ (InsertDemoOrder ctx sunday10h reqSameKey
        (CheckDemoTrade ctx (monday10h + 2) (tickStock 1693792801)
          (envStock 200)).1).env.demoOrderList
      = (CheckDemoTrade ctx (monday10h + 2) (tickStock 1693792801)
          (envStock 200)).1.demoOrderList :=
  InsertDemoOrder_duplicate_rejected ctx (SetInstrument [instStock] Env.empty)
    (CheckDemoTrade ctx (monday10h + 2) (tickStock 1693792801) (envStock 200)).1
    monday10h (reqStock 200) (by decide)
    (Relation.ReflTransGen.single
      (Step.checkDemoTrade (monday10h + 2) (tickStock 1693792801) (envStock 200)))
    sunday10h reqSameKey ⟨rfl, rfl, rfl⟩

/-! ## The order log -/

theorem Store.get_nil (k : String) : Store.get [] k = none := rfl

theorem Store.get_cons (r : String × Bytes) (db : Store) (k : String) :
    Store.get (r :: db) k = if r.1 = k then some r.2 else Store.get db k := by
  unfold Store.get
  by_cases h : r.1 = k <;> simp [List.find?_cons, h]

theorem Store.get_filter_ne (db : Store) (k k' : String) (h : k' ≠ k) :
    Store.get (db.filter (fun x => x.1 ≠ k)) k' = Store.get db k' := by
  induction db with
  | nil => rfl
  | cons r rest ih =>
    by_cases hr : r.1 = k
    · have hk : r.1 ≠ k' := by rw [hr]; exact fun h' => h h'.symm
      rw [List.filter_cons_of_neg (by simp [hr]), ih, Store.get_cons, if_neg hk]
    · rw [List.filter_cons_of_pos (by simp [hr]), Store.get_cons, Store.get_cons, ih]

theorem Store.get_delete_self (db : Store) (k : String) : Store.get (db.delete k) k = none := by
  unfold Store.delete
  induction db with
  | nil => rfl
  | cons r rest ih =>
    by_cases hr : r.1 = k
    · rw [List.filter_cons_of_neg (by simp [hr]), ih]
    · rw [List.filter_cons_of_pos (by simp [hr]), Store.get_cons, if_neg hr, ih]

theorem Store.get_delete_other (db : Store) (k k' : String) (h : k' ≠ k) :
    Store.get (db.delete k) k' = Store.get db k' :=
  Store.get_filter_ne db k k' h

theorem Store.get_put_self (db : Store) (k : String) (v : Bytes) :
    Store.get (Store.put k v db) k = some v := by
  induction db with
  | nil => simp [Store.put, Store.get_cons]
  | cons r rest ih =>
    unfold Store.put
    split
    · simp [Store.get_cons]
    · split
      · simp [Store.get_cons]
      · rename_i h _
        simp [Store.get_cons, h, ih]

theorem Store.get_put_other (db : Store) (k k' : String) (v : Bytes) (h : k' ≠ k) :
    Store.get (Store.put k v db) k' = Store.get db k' := by
  have hk : ¬ k = k' := fun h' => h h'.symm
  induction db with
  | nil => simp [Store.put, Store.get_cons, hk, Store.get_nil]
  | cons r rest ih =>
    unfold Store.put
    split
    · rename_i hr
      have : ¬ r.1 = k' := by rw [hr]; exact hk
      simp [Store.get_cons, hk, this]
    · split
      · simp only [Store.get_cons, hk, if_false]
        rw [Store.get_filter_ne rest k k' h]
      · simp [Store.get_cons, ih]

theorem recoverLoop_eq (unmarshal : Bytes → Option DemoOrder) (recs : List (String × Bytes))
    (db : Store) (l : List DemoOrder) :
    recoverLoop unmarshal recs db l
      = (db.filter (fun x => !(recs.any (fun r => isDoneRecord unmarshal r && decide (r.1 = x.1)))),
         l ++ recs.filterMap (openOrder unmarshal)) := by
  induction recs generalizing db l with
  | nil => simp [recoverLoop]
  | cons r rest ih =>
    unfold recoverLoop
    cases hu : unmarshal r.2 with
    | none =>
      simp only [ih, List.any_cons, isDoneRecord, openOrder, hu, List.filterMap_cons,
        Bool.false_and, Bool.false_or]
    | some o =>
      by_cases hd : isDone o = true
      · simp only [hd, if_true, ih, Store.delete, List.filter_filter, List.any_cons, isDoneRecord,
          openOrder, hu, List.filterMap_cons, Bool.true_and]
        congr 1
        apply List.filter_congr
        intro x _
        by_cases hx : r.1 = x.1 <;> simp [hx, eq_comm]
      · simp only [hd, ih, List.any_cons, isDoneRecord, openOrder, hu, List.filterMap_cons,
          Bool.false_and, Bool.false_or, List.append_assoc, List.singleton_append]
        simp

/-- C8. The startup scan of `NewDemoEnv` over a key-value store (no key twice):
the recovered order list is exactly the orders of the records that decode and
do not satisfy `isDone`, in scan order; the store it leaves is the old store
without the records that decode and satisfy `isDone`, every other record (open
or undecodable) staying where and as it was; the key of a done record has no
entry left. -/
theorem recoverOrders_spec (unmarshal : Bytes → Option DemoOrder) (db : Store)
    (hkeys : (db.map Prod.fst).Nodup) :
    (recoverOrders unmarshal db).2 = db.filterMap (openOrder unmarshal)
      ∧ (recoverOrders unmarshal db).1 = db.filter (fun r => !isDoneRecord unmarshal r)
      ∧ (∀ r ∈ db, isDoneRecord unmarshal r = true →
          Store.get (recoverOrders unmarshal db).1 r.1 = none)
      ∧ (∀ r ∈ db, isDoneRecord unmarshal r = false →
          r ∈ (recoverOrders unmarshal db).1
            ∧ Store.get (recoverOrders unmarshal db).1 r.1 = Store.get db r.1) := by
  have hinj := List.inj_on_of_nodup_map hkeys
  have hstore : (recoverOrders unmarshal db).1
      = db.filter (fun r => !isDoneRecord unmarshal r) := by
    unfold recoverOrders
    rw [recoverLoop_eq]
    apply List.filter_congr
    intro x hx
    congr 1
    cases hdx : isDoneRecord unmarshal x with
    | true =>
      rw [List.any_eq_true]
      exact ⟨x, hx, by simp [hdx]⟩
    | false =>
      rw [List.any_eq_false]
      intro r hr hc
      simp only [Bool.and_eq_true, decide_eq_true_eq] at hc
      have := hinj hr hx hc.2
      rw [this, hdx] at hc
      exact absurd hc.1 (by simp)
  have hget : ∀ r ∈ db, Store.get db r.1 = some r.2 := by
    intro r hr
    unfold Store.get
    cases hf : List.find? (fun x => decide (x.1 = r.1)) db with
    | none =>
      have := List.find?_eq_none.1 hf r hr
      simp at this
    | some y =>
      have hy := List.mem_of_find?_eq_some hf
      have hk := List.find?_some hf
      simp only [decide_eq_true_eq] at hk
      rw [hinj hy hr hk]
  refine ⟨?_, hstore, ?_, ?_⟩
  · unfold recoverOrders
    rw [recoverLoop_eq]
    simp
  · intro r hr hd
    rw [hstore]
    unfold Store.get
    cases hf : List.find? (fun x => decide (x.1 = r.1))
        (db.filter (fun r => !isDoneRecord unmarshal r)) with
    | none => rfl
    | some y =>
      exfalso
      have hy := List.mem_of_find?_eq_some hf
      have hk := List.find?_some hf
      simp only [decide_eq_true_eq] at hk
      rw [List.mem_filter] at hy
      have := hinj hy.1 hr hk
      rw [this, hd] at hy
      exact absurd hy.2 (by simp)
  · intro r hr hd
    have hmem : r ∈ db.filter (fun r => !isDoneRecord unmarshal r) := by
      rw [List.mem_filter]; exact ⟨hr, by simp [hd]⟩
    rw [hstore]
    refine ⟨hmem, ?_⟩
    rw [hget r hr]
    unfold Store.get
    cases hf : List.find? (fun x => decide (x.1 = r.1))
        (db.filter (fun r => !isDoneRecord unmarshal r)) with
    | none =>
      have := List.find?_eq_none.1 hf r hmem
      simp at this
    | some y =>
      have hy := List.mem_of_find?_eq_some hf
      have hk := List.find?_some hf
      simp only [decide_eq_true_eq] at hk
      rw [List.mem_filter] at hy
      rw [hinj hy.1 hr hk]

/-- C8 at a log with one done record and one open record: the recovered list
holds the open record only, and so does the log. -/
theorem recoverOrders_spec_witness :
    ((recoverOrders unmarshal3 storeTwo).2 = storeTwo.filterMap (openOrder unmarshal3)
      ∧ (recoverOrders unmarshal3 storeTwo).1
          = storeTwo.filter (fun r => !isDoneRecord unmarshal3 r)
      ∧ (∀ r ∈ storeTwo, isDoneRecord unmarshal3 r = true →
          Store.get (recoverOrders unmarshal3 storeTwo).1 r.1 = none)
      ∧ (∀ r ∈ storeTwo, isDoneRecord unmarshal3 r = false →
          r ∈ (recoverOrders unmarshal3 storeTwo).1
            ∧ Store.get (recoverOrders unmarshal3 storeTwo).1 r.1 = Store.get storeTwo r.1))
    ∧ (recoverOrders unmarshal3 storeTwo).1 = [("1-1-b", [1, 0, 3])]
    ∧ (recoverOrders unmarshal3 storeTwo).2
        = [{ DemoOrder.zero with VolumeTraded := 1, VolumeCanceled := 0, Volume := 3 }] :=
  ⟨recoverOrders_spec unmarshal3 storeTwo (by decide), by decide, by decide⟩

/-- C10. One step of the dispatch loop. The key of an order-update `o` is the
string `"<FrontId>-<SessionId>-<OrderRef>"`: the two numbers in decimal and the
order reference, joined by hyphens. For an order-update `o` with that key `k`:
when `isDone o`, the log has no entry at `k` afterwards; otherwise, `b` being
the serialisation of `o`, the log maps `k` to `b`; in both cases every other key
of the log is as before and the order callback is called exactly once, with
`o`, the trade callback not at all. For a trade message no key of the log
changes and the trade callback is called exactly once, with the trade, the
order callback not at all. -/
theorem dispatch_step_spec (marshal : DemoOrder → Option Bytes) (o : DemoOrder) (tr : Trade)
    (d : Dispatch) :
    orderKey o = toString o.FrontId ++ "-" ++ toString o.SessionId ++ "-" ++ o.OrderRef
    ∧ (isDone o = true →
        Store.get (dispatchOrder marshal o d).1.orderDB
            (toString o.FrontId ++ "-" ++ toString o.SessionId ++ "-" ++ o.OrderRef) = none
        ∧ (∀ k, k ≠ toString o.FrontId ++ "-" ++ toString o.SessionId ++ "-" ++ o.OrderRef →
            Store.get (dispatchOrder marshal o d).1.orderDB k = Store.get d.orderDB k)
        ∧ (dispatchOrder marshal o d).1.handledOrders = d.handledOrders ++ [o]
        ∧ (dispatchOrder marshal o d).1.handledTrades = d.handledTrades
        ∧ (dispatchOrder marshal o d).2 = none)
    ∧ (isDone o = false → ∀ b, marshal o = some b →
        Store.get (dispatchOrder marshal o d).1.orderDB
            (toString o.FrontId ++ "-" ++ toString o.SessionId ++ "-" ++ o.OrderRef) = some b
        ∧ (∀ k, k ≠ toString o.FrontId ++ "-" ++ toString o.SessionId ++ "-" ++ o.OrderRef →
            Store.get (dispatchOrder marshal o d).1.orderDB k = Store.get d.orderDB k)
        ∧ (dispatchOrder marshal o d).1.handledOrders = d.handledOrders ++ [o]
        ∧ (dispatchOrder marshal o d).1.handledTrades = d.handledTrades
        ∧ (dispatchOrder marshal o d).2 = none)
    ∧ ((dispatchTrade tr d).1.orderDB = d.orderDB
        ∧ (∀ k, Store.get (dispatchTrade tr d).1.orderDB k = Store.get d.orderDB k)
        ∧ (dispatchTrade tr d).1.handledTrades = d.handledTrades ++ [tr]
        ∧ (dispatchTrade tr d).1.handledOrders = d.handledOrders
        ∧ (dispatchTrade tr d).2 = none) := by
  have hkey : orderKey o
      = toString o.FrontId ++ "-" ++ toString o.SessionId ++ "-" ++ o.OrderRef := rfl
  refine ⟨hkey, ?_, ?_, ?_⟩
  · intro hd
    have he : dispatchOrder marshal o d
        = ({ d with orderDB := d.orderDB.delete (orderKey o),
                    handledOrders := d.handledOrders ++ [o] }, none) := by
      simp only [dispatchOrder, hd, if_true]
    rw [he, ← hkey]
    exact ⟨Store.get_delete_self _ _, fun k hk => Store.get_delete_other _ _ _ hk, rfl, rfl, rfl⟩
  · intro hd b hb
    have he : dispatchOrder marshal o d
        = ({ d with orderDB := Store.put (orderKey o) b d.orderDB,
                    handledOrders := d.handledOrders ++ [o] }, none) := by
      simp only [dispatchOrder, hd, hb, Bool.false_eq_true, if_false]
    rw [he, ← hkey]
    exact ⟨Store.get_put_self _ _ _, fun k hk => Store.get_put_other _ _ _ _ hk, rfl, rfl, rfl⟩
  · exact ⟨rfl, fun _ => rfl, rfl, rfl, rfl⟩

/-- C10 at an open order (front 1, session 1, reference "c") dispatched over
the two-record log: its key is "1-1-c", the log maps "1-1-c" to its
serialisation afterwards and keeps the entries at "1-1-a" and "1-1-b", and the
order callback is called once; a negative number is written with its sign. -/
theorem dispatch_step_spec_witness :
    (Store.get (dispatchOrder marshal3 orderOpen ⟨storeTwo, [], []⟩).1.orderDB
          (toString orderOpen.FrontId ++ "-" ++ toString orderOpen.SessionId ++ "-"
            ++ orderOpen.OrderRef)
        = some [1, 0, 4]
      ∧ (∀ k, k ≠ toString orderOpen.FrontId ++ "-" ++ toString orderOpen.SessionId ++ "-"
            ++ orderOpen.OrderRef →
          Store.get (dispatchOrder marshal3 orderOpen ⟨storeTwo, [], []⟩).1.orderDB k
            = Store.get storeTwo k)
      ∧ (dispatchOrder marshal3 orderOpen ⟨storeTwo, [], []⟩).1.handledOrders = [] ++ [orderOpen]
      ∧ (dispatchOrder marshal3 orderOpen ⟨storeTwo, [], []⟩).1.handledTrades = []
      ∧ (dispatchOrder marshal3 orderOpen ⟨storeTwo, [], []⟩).2 = none)
    ∧ orderKey orderOpen = "1-1-c"
    ∧ orderKey { orderOpen with FrontId := -3, SessionId := 12, OrderRef := "ab-1" } = "-3-12-ab-1"
    ∧ Store.get (dispatchOrder marshal3 orderOpen ⟨storeTwo, [], []⟩).1.orderDB "1-1-c"
        = some [1, 0, 4]
    ∧ (dispatchOrder marshal3 orderOpen ⟨storeTwo, [], []⟩).1.orderDB
        = [("1-1-a", [2, 1, 3]), ("1-1-b", [1, 0, 3]), ("1-1-c", [1, 0, 4])] :=
  ⟨(dispatch_step_spec marshal3 orderOpen Trade.zero ⟨storeTwo, [], []⟩).2.2.1 (by decide)
      [1, 0, 4] (by decide),
    by decide, by decide, by decide!, by decide!⟩

/-! ## The bucket loop ends -/

theorem fillRound_pos (tv : List Int) (nowT : Nat) (rvLeft : Int) (hr : 0 < rvLeft) :
    0 ≤ (fillRound tv nowT rvLeft).2.2
      ∧ (0 < (fillRound tv nowT rvLeft).2.2 →
          stepsLeft (fillRound tv nowT rvLeft).2.1 (fillRound tv nowT rvLeft).2.2
              ≤ stepsLeft nowT rvLeft
            ∧ (tv ≠ [] →
              stepsLeft (fillRound tv nowT rvLeft).2.1 (fillRound tv nowT rvLeft).2.2
                < stepsLeft nowT rvLeft))
      ∧ (fillRound tv nowT rvLeft).1.sum + (fillRound tv nowT rvLeft).2.2 = tv.sum + rvLeft
      ∧ (fillRound tv nowT rvLeft).1.length = tv.length := by
  induction tv generalizing nowT rvLeft with
  | nil =>
    unfold fillRound
    exact ⟨le_of_lt hr, fun _ => ⟨le_refl _, fun h => absurd rfl h⟩, rfl, rfl⟩
  | cons b rest ih =>
    unfold fillRound
    dsimp only
    have hm : nowT % 3 < 3 := Nat.mod_lt _ (by decide)
    split
    · rename_i hlt
      -- the lots left are fewer than `nowT % 3`: they all go to this bucket
      rw [if_pos (by omega)]
      dsimp only
      refine ⟨by omega, fun h => absurd h (by omega), ?_, ?_⟩
      · rw [List.sum_cons, List.sum_cons]; ring
      · rw [List.length_cons, List.length_cons]
    · rename_i hge
      split
      · rename_i hz
        dsimp only
        refine ⟨by omega, fun h => absurd h (by omega), ?_, ?_⟩
        · rw [List.sum_cons, List.sum_cons]; ring
        · rw [List.length_cons, List.length_cons]
      · rename_i hz
        have hr' : 0 < rvLeft - ((nowT % 3 : Nat) : Int) := by omega
        obtain ⟨h1, h2, h3, h4⟩ := ih (nowT + 1) (rvLeft - ((nowT % 3 : Nat) : Int)) hr'
        simp only [List.sum_cons, List.length_cons]
        have hstep : stepsLeft (nowT + 1) (rvLeft - ((nowT % 3 : Nat) : Int))
            < stepsLeft nowT rvLeft := by
          unfold stepsLeft
          omega
        refine ⟨h1, fun h => ?_, by rw [add_assoc, h3]; ring, by rw [h4]⟩
        have := (h2 h).1
        exact ⟨by omega, fun _ => by omega⟩

theorem fillRound_nonpos (b : Int) (rest : List Int) (nowT : Nat) (rvLeft : Int)
    (hr : rvLeft ≤ 0) :
    (fillRound (b :: rest) nowT rvLeft).2.2 = 0
      ∧ (fillRound (b :: rest) nowT rvLeft).1.sum = (b :: rest).sum + rvLeft
      ∧ (fillRound (b :: rest) nowT rvLeft).1.length = (b :: rest).length := by
  unfold fillRound
  dsimp only
  split
  · rw [if_pos (by omega)]
    dsimp only
    refine ⟨by omega, ?_, ?_⟩
    · rw [List.sum_cons, List.sum_cons]; ring
    · rw [List.length_cons, List.length_cons]
  · rename_i hge
    have h0 : ((nowT % 3 : Nat) : Int) = 0 := by omega
    have hr0 : rvLeft = 0 := by omega
    rw [if_pos (by omega)]
    dsimp only
    refine ⟨by omega, ?_, ?_⟩
    · rw [List.sum_cons, List.sum_cons, h0, hr0]; ring
    · rw [List.length_cons, List.length_cons]

theorem fillBuckets_some (fuel : Nat) (tv : List Int) (nowT : Nat) (rvLeft : Int)
    (htv : tv ≠ []) (hfuel : stepsLeft nowT rvLeft < fuel) :
    ∃ out, fillBuckets fuel tv nowT rvLeft = some out ∧ out.sum = tv.sum + rvLeft
      ∧ out.length = tv.length := by
  induction fuel generalizing tv nowT rvLeft with
  | zero => exact absurd hfuel (Nat.not_lt_zero _)
  | succ fuel ih =>
    unfold fillBuckets
    dsimp only
    by_cases hr : 0 < rvLeft
    · obtain ⟨h1, h2, h3, h4⟩ := fillRound_pos tv nowT rvLeft hr
      split
      · rename_i hz
        have : (fillRound tv nowT rvLeft).2.2 = 0 := le_antisymm hz h1
        rw [this, add_zero] at h3
        exact ⟨_, rfl, h3, h4⟩
      · rename_i hz
        have hpos : 0 < (fillRound tv nowT rvLeft).2.2 := lt_of_not_ge hz
        have hne : (fillRound tv nowT rvLeft).1 ≠ [] := by
          intro he
          rw [he] at h4
          exact htv (List.length_eq_zero.1 h4.symm)
        have hlt := (h2 hpos).2 htv
        obtain ⟨out, e1, e2, e3⟩ := ih (fillRound tv nowT rvLeft).1 (fillRound tv nowT rvLeft).2.1
          (fillRound tv nowT rvLeft).2.2 hne (by omega)
        exact ⟨out, e1, by rw [e2, h3], by rw [e3, h4]⟩
    · cases tv with
      | nil => exact absurd rfl htv
      | cons b rest =>
        obtain ⟨h1, h2, h3⟩ := fillRound_nonpos b rest nowT rvLeft (le_of_not_lt hr)
        rw [if_pos (by rw [h1])]
        exact ⟨_, rfl, h2, h3⟩

/-- The bucket loop ends whenever there is a bucket: within the rounds
`tradedVolumes` gives it, it stops with the buckets increased by `rvLeft` in
all and their number unchanged. -/
theorem fillBuckets_terminates (tv : List Int) (nowT : Nat) (v : Int) (htv : tv ≠ []) :
    ∃ out, fillBuckets (3 * v.toNat + 3) tv nowT v = some out ∧ out.sum = tv.sum + v
      ∧ out.length = tv.length := by
  apply fillBuckets_some _ tv nowT v htv
  unfold stepsLeft
  omega

/-- More rounds do not change what the bucket loop returns. -/
theorem fillBuckets_more_fuel (fuel k : Nat) (tv : List Int) (nowT : Nat) (rvLeft : Int)
    (out : List Int) (h : fillBuckets fuel tv nowT rvLeft = some out) :
    fillBuckets (fuel + k) tv nowT rvLeft = some out := by
  induction fuel generalizing tv nowT rvLeft with
  | zero => simp [fillBuckets] at h
  | succ fuel ih =>
    rw [Nat.add_right_comm]
    unfold fillBuckets at h ⊢
    dsimp only at h ⊢
    split
    · rename_i hz
      rw [if_pos hz] at h
      exact h
    · rename_i hz
      rw [if_neg hz] at h
      exact ih _ _ _ h

theorem lowerRange_pos (ex : String) (volume : Int) : 0 < lowerRange ex volume := by
  unfold lowerRange
  split
  · split
    · decide
    · split <;> decide
  · split
    · split
      · decide
      · split <;> decide
    · decide

/-- The split of lines 361-402 always returns: `tradedVolumes` is never `none`. -/
theorem tradedVolumes_isSome (ex : String) (nowT : Nat) (volume minimumVolume : Int) :
    (tradedVolumes ex nowT volume minimumVolume).isSome = true := by
  unfold tradedVolumes
  dsimp only
  have hne : List.replicate (nowT % 4 + lowerRange ex volume) (0 : Int) ≠ [] := by
    intro he
    have := congrArg List.length he
    simp only [List.length_replicate, List.length_nil] at this
    have := lowerRange_pos ex volume
    omega
  obtain ⟨out, h, _, _⟩ := fillBuckets_terminates _ nowT (div32 volume minimumVolume) hne
  rw [h]
  rfl

/-! ## Fills: the code at concrete books -/

/-- C1 fails in the code at a volume that is not a multiple of the minimum lot.
The long limit order for 350 shares that `InsertDemoOrder` builds on "SSE"
(minimum lot 100, not a combination) is filled by `checkDemoOrderDone` without
a fault, and the trades sent have the volumes 200, 100 and 350: they sum to 650,
not to the 350 of the order, because the remainder bucket of 50 is multiplied
by the minimum lot like the others and then cut to the order volume. -/
theorem checkDemoOrderDone_remainder_overfill :
    (buildOrder ctx monday10h (reqStock 350) instStock 0).Volume = 350
      ∧ (buildOrder ctx monday10h (reqStock 350) instStock 0).ProductType
          ≠ ctx.K.ProductType_COMBINATION
      ∧ minimumVolume ctx.K (buildOrder ctx monday10h (reqStock 350) instStock 0) = 100
      ∧ tradedVolumes "SSE" (monday10h + 2) 350 100 = some [2, 0, 1, 50]
      ∧ (checkDemoOrderDone ctx (monday10h + 2) (tickStock 1693792801)
          (buildOrder ctx monday10h (reqStock 350) instStock 0) 1).fault = none
      ∧ (checkDemoOrderDone ctx (monday10h + 2) (tickStock 1693792801)
          (buildOrder ctx monday10h (reqStock 350) instStock 0) 1).sentTrades.map
            (fun t => t.Volume) = [200, 100, 350]
      ∧ ((checkDemoOrderDone ctx (monday10h + 2) (tickStock 1693792801)
          (buildOrder ctx monday10h (reqStock 350) instStock 0) 1).sentTrades.map
            (fun t => t.Volume)).sum = 650 := by
  decide!

/-- C2 fails in the code: an order is filled again by a later pass. The stock
order for 200 shares is filled by a first matching pass (one done order-update,
one trade of 200) and filled once more by the next pass, which sends a second
done order-update and two more trades, of 100 each, for the same order. -/
theorem CheckDemoTrade_fills_twice :
    (CheckDemoTrade ctx (monday10h + 2) (tickStock 1693792801) (envStock 200)).2 = none
      ∧ (CheckDemoTrade ctx (monday10h + 2) (tickStock 1693792801)
          (envStock 200)).1.chDemoOrder.map (fun o => (o.DemoOrderId, o.Status))
          = [("0", 0), ("0", 5)]
      ∧ (CheckDemoTrade ctx (monday10h + 2) (tickStock 1693792801)
          (envStock 200)).1.chTrade.map (fun t => (t.ExchangeOrderId, t.Volume))
          = [("0", 200)]
      ∧ (CheckDemoTrade ctx (monday10h + 3) (tickStock 1693792802)
          (CheckDemoTrade ctx (monday10h + 2) (tickStock 1693792801) (envStock 200)).1).2 = none
      ∧ (CheckDemoTrade ctx (monday10h + 3) (tickStock 1693792802)
          (CheckDemoTrade ctx (monday10h + 2) (tickStock 1693792801)
            (envStock 200)).1).1.chDemoOrder.map (fun o => (o.DemoOrderId, o.Status))
          = [("0", 0), ("0", 5), ("0", 5)]
      ∧ (CheckDemoTrade ctx (monday10h + 3) (tickStock 1693792802)
          (CheckDemoTrade ctx (monday10h + 2) (tickStock 1693792801)
            (envStock 200)).1).1.chTrade.map (fun t => (t.ExchangeOrderId, t.Volume))
          = [("0", 200), ("0", 100), ("0", 100)] := by
  decide!

/-- C3 fails in the code: after the stock order for 200 shares is submitted to
the empty book and filled by a matching pass, the order of the book has the
status DONE while `VolumeTraded + VolumeCanceled` is 0, not its `Volume` of
200, so `isDone` is false for it. -/
theorem CheckDemoTrade_done_without_isDone :
    (envStock 200).demoOrderList.map
        (fun o => (o.Status, o.VolumeTraded, o.VolumeCanceled, o.Volume, isDone o))
        = [(0, 0, 0, 200, false)]
      ∧ (CheckDemoTrade ctx (monday10h + 2) (tickStock 1693792801)
          (envStock 200)).1.chTrade.map (fun t => t.Volume) = [200]
      ∧ (CheckDemoTrade ctx (monday10h + 2) (tickStock 1693792801)
          (envStock 200)).1.demoOrderList.map
            (fun o => (o.Status, o.VolumeTraded, o.VolumeCanceled, o.Volume, isDone o))
          = [(ctx.K.OrderStatus_DONE, 0, 0, 200, false)] := by
  decide!

/-- C9 fails in the code when the exchange of the order is not "SSE" or "SZE".
The long limit order for "IF2309" on "CFFEX" (price 4000.0, volume 300) is
accepted on a Monday and gets the minimum lot 0, `InsertDemoOrder` setting
neither minimum-lot field; the matching pass with the tick of the scenario
marks it done, sends the done order-update and then stops with a division by
zero at `order.Volume / minimumVolume`: no trade is sent. -/
theorem CheckDemoTrade_scenario_divides_by_zero :
    (InsertDemoOrder ctx monday10h reqIF envIF).err = none
      ∧ (InsertDemoOrder ctx monday10h reqIF envIF).env.demoOrderList.map
          (fun o => (o.Exchange, o.Price, o.Volume, o.MinLimitOrderVolume,
            o.MinMarketOrderVolume, minimumVolume ctx.K o))
          = [("CFFEX", 4000, 300, 0, 0, 0)]
      ∧ (CheckDemoTrade ctx (monday10h + 2) tickIF
          (InsertDemoOrder ctx monday10h reqIF envIF).env).2 = some Fault.divideByZero
      ∧ (CheckDemoTrade ctx (monday10h + 2) tickIF
          (InsertDemoOrder ctx monday10h reqIF envIF).env).1.chTrade = []
      ∧ (CheckDemoTrade ctx (monday10h + 2) tickIF
          (InsertDemoOrder ctx monday10h reqIF envIF).env).1.chDemoOrder.map
            (fun o => o.Status) = [0, ctx.K.OrderStatus_DONE]
      ∧ (CheckDemoTrade ctx (monday10h + 2) tickIF
          (InsertDemoOrder ctx monday10h reqIF envIF).env).1.demoOrderList.map
            (fun o => o.Status) = [ctx.K.OrderStatus_DONE] := by
  decide!

/-! ## The paths of `checkDemoOrderDone` -/

theorem checkDemoOrderDone_cases (W : Ctx) (now : Nat) (mds : MarketDataSnapshot)
    (o : DemoOrder) (uid : Nat) :
    (skipBeforeDepth W.K now mds o = true
        ∧ checkDemoOrderDone W now mds o uid = ⟨o, [], [], uid, none⟩)
    ∨ (skipBeforeDepth W.K now mds o = false ∧ mds.Depths = []
        ∧ checkDemoOrderDone W now mds o uid = ⟨o, [], [], uid, some Fault.indexOutOfRange⟩)
    ∨ (skipBeforeDepth W.K now mds o = false
        ∧ ∃ top rest, mds.Depths = top :: rest
          ∧ ((skipOnTop W.K mds o top = true
              ∧ checkDemoOrderDone W now mds o uid = ⟨o, [], [], uid, none⟩)
            ∨ (skipOnTop W.K mds o top = false ∧ resolveFill W.K W.loc mds o = none
              ∧ checkDemoOrderDone W now mds o uid = ⟨o, [], [], uid, none⟩)
            ∨ (skipOnTop W.K mds o top = false
              ∧ ∃ price tradedTime, resolveFill W.K W.loc mds o = some (price, tradedTime)
                ∧ checkDemoOrderDone W now mds o uid
                  = fillOrder W now mds o uid price tradedTime))) := by
  unfold checkDemoOrderDone
  cases hb : skipBeforeDepth W.K now mds o with
  | true => exact Or.inl ⟨rfl, by simp⟩
  | false =>
    right
    cases hd : mds.Depths with
    | nil => exact Or.inl ⟨rfl, rfl, by simp⟩
    | cons top rest =>
      right
      refine ⟨rfl, top, rest, rfl, ?_⟩
      cases ht : skipOnTop W.K mds o top with
      | true => exact Or.inl ⟨rfl, by simp [ht]⟩
      | false =>
        right
        cases hr : resolveFill W.K W.loc mds o with
        | none => exact Or.inl ⟨rfl, rfl, by simp [ht]⟩
        | some pt => exact Or.inr ⟨rfl, pt.1, pt.2, rfl, by simp [ht]⟩

theorem fillOrder_sentOrders (W : Ctx) (nowT : Nat) (mds : MarketDataSnapshot) (o : DemoOrder)
    (uid : Nat) (price : ℚ) (tradedTime : Int) :
    (fillOrder W nowT mds o uid price tradedTime).sentOrders
      = [{ o with Status := W.K.OrderStatus_DONE }] := by
  unfold fillOrder
  dsimp only
  split
  · rfl
  · split <;> rfl

theorem emitTrades_mem (getUID : Nat → String) (isCombine : Bool) (tr : Trade)
    (volume minimumVolume : Int) (tv : List Int) (uid : Nat) :
    ∀ t ∈ (emitTrades getUID isCombine tr volume minimumVolume tv uid).1,
      isCombine = false ∧ t.Price = tr.Price ∧ t.TradedTime = tr.TradedTime
        ∧ t.Direction = tr.Direction ∧ t.Symbol = tr.Symbol
        ∧ t.ExchangeOrderId = tr.ExchangeOrderId := by
  induction tv generalizing uid with
  | nil => intro t ht; simp [emitTrades] at ht
  | cons b rest ih =>
    intro t ht
    unfold emitTrades at ht
    split at ht
    · dsimp only at ht
      split at ht
      · exact ih uid t ht
      · rename_i hc
        rcases List.mem_cons.1 ht with rfl | ht
        · exact ⟨by simpa using hc, rfl, rfl, rfl, rfl, rfl⟩
        · exact ih (uid + 1) t ht
    · exact ih uid t ht

theorem fillOrder_trades (W : Ctx) (nowT : Nat) (mds : MarketDataSnapshot) (o : DemoOrder)
    (uid : Nat) (price : ℚ) (tradedTime : Int) :
    ∀ t ∈ (fillOrder W nowT mds o uid price tradedTime).sentTrades,
      o.ProductType ≠ W.K.ProductType_COMBINATION ∧ t.Price = price
        ∧ t.TradedTime = tradedTime := by
  intro t ht
  unfold fillOrder at ht
  dsimp only at ht
  split at ht
  · simp at ht
  · split at ht
    · simp at ht
    · obtain ⟨h1, h2, h3, _⟩ := emitTrades_mem _ _ _ _ _ _ _ t ht
      exact ⟨by simpa using h1, h2, h3⟩

/-! ## The volume split -/

/-- C20. The bucket loop of the volume split ends. For every clock `nowT`, every
exchange, every order volume and every lot count `v`: there is at least one
bucket, their number being `nowT mod 4` plus the base of the venue table; run
for enough rounds the loop stops, and with any further rounds allowed it stops
with the same buckets; the buckets are as many as before and sum to exactly `v`.
The split `tradedVolumes` built on the loop returns for every minimum lot. -/
theorem fillBuckets_split_terminates (ex : String) (nowT : Nat) (volume v : Int) :
    1 ≤ nowT % 4 + lowerRange ex volume
      ∧ (∃ fuel out,
          fillBuckets fuel (List.replicate (nowT % 4 + lowerRange ex volume) 0) nowT v = some out
          ∧ (∀ k, fillBuckets (fuel + k) (List.replicate (nowT % 4 + lowerRange ex volume) 0)
              nowT v = some out)
          ∧ out.length = nowT % 4 + lowerRange ex volume
          ∧ out.sum = v)
      ∧ (∀ minimumVolume, ∃ tv, tradedVolumes ex nowT volume minimumVolume = some tv) := by
  have hpos := lowerRange_pos ex volume
  have hne : List.replicate (nowT % 4 + lowerRange ex volume) (0 : Int) ≠ [] := by
    intro he
    have := congrArg List.length he
    simp only [List.length_replicate, List.length_nil] at this
    omega
  refine ⟨by omega, ?_, ?_⟩
  · obtain ⟨out, h1, h2, h3⟩ := fillBuckets_terminates _ nowT v hne
    refine ⟨3 * v.toNat + 3, out, h1, fun k => fillBuckets_more_fuel _ k _ _ _ _ h1, ?_, ?_⟩
    · rw [h3, List.length_replicate]
    · rw [h2]
      simp
  · intro m
    exact Option.isSome_iff_exists.1 (tradedVolumes_isSome ex nowT volume m)

/-! ## Price discovery and the minimum lot -/

theorem scanAsk_spec (depths : List OrderBook) (h : depths ≠ []) (a : ℚ) :
    (∃ pre ob post, depths = pre ++ ob :: post ∧ (∀ x ∈ pre, ¬ x.AskVolume > 0)
        ∧ ob.AskVolume > 0 ∧ scanAsk depths a = ob.Ask)
    ∨ ((∀ x ∈ depths, ¬ x.AskVolume > 0) ∧ scanAsk depths a = (depths.getLast h).Ask) := by
  induction depths generalizing a with
  | nil => exact absurd rfl h
  | cons ob rest ih =>
    by_cases hv : ob.AskVolume > 0
    · exact Or.inl ⟨[], ob, rest, rfl, by simp, hv, by simp [scanAsk, hv]⟩
    · have hs : scanAsk (ob :: rest) a = scanAsk rest ob.Ask := by simp [scanAsk, hv]
      cases rest with
      | nil =>
        right
        refine ⟨?_, by simp [scanAsk, hv]⟩
        intro x hx
        rw [List.mem_singleton] at hx
        rw [hx]; exact hv
      | cons ob' rest' =>
        rcases ih (List.cons_ne_nil _ _) ob.Ask with ⟨pre, b, post, he, hpre, hb, hres⟩ | ⟨hall, hres⟩
        · left
          refine ⟨ob :: pre, b, post, by rw [he]; rfl, ?_, hb, by rw [hs, hres]⟩
          intro x hx
          rcases List.mem_cons.1 hx with rfl | hx
          · exact hv
          · exact hpre x hx
        · right
          refine ⟨?_, by rw [hs, hres, List.getLast_cons (List.cons_ne_nil _ _)]⟩
          intro x hx
          rcases List.mem_cons.1 hx with rfl | hx
          · exact hv
          · exact hall x hx

theorem scanBid_spec (depths : List OrderBook) (h : depths ≠ []) (a : ℚ) :
    (∃ pre ob post, depths = pre ++ ob :: post ∧ (∀ x ∈ pre, ¬ x.BidVolume > 0)
        ∧ ob.BidVolume > 0 ∧ scanBid depths a = ob.Bid)
    ∨ ((∀ x ∈ depths, ¬ x.BidVolume > 0) ∧ scanBid depths a = (depths.getLast h).Bid) := by
  induction depths generalizing a with
  | nil => exact absurd rfl h
  | cons ob rest ih =>
    by_cases hv : ob.BidVolume > 0
    · exact Or.inl ⟨[], ob, rest, rfl, by simp, hv, by simp [scanBid, hv]⟩
    · have hs : scanBid (ob :: rest) a = scanBid rest ob.Bid := by simp [scanBid, hv]
      cases rest with
      | nil =>
        right
        refine ⟨?_, by simp [scanBid, hv]⟩
        intro x hx
        rw [List.mem_singleton] at hx
        rw [hx]; exact hv
      | cons ob' rest' =>
        rcases ih (List.cons_ne_nil _ _) ob.Bid with ⟨pre, b, post, he, hpre, hb, hres⟩ | ⟨hall, hres⟩
        · left
          refine ⟨ob :: pre, b, post, by rw [he]; rfl, ?_, hb, by rw [hs, hres]⟩
          intro x hx
          rcases List.mem_cons.1 hx with rfl | hx
          · exact hv
          · exact hpre x hx
        · right
          refine ⟨?_, by rw [hs, hres, List.getLast_cons (List.cons_ne_nil _ _)]⟩
          intro x hx
          rcases List.mem_cons.1 hx with rfl | hx
          · exact hv
          · exact hall x hx

/-- C13, as stated, fails: on two depth levels without volume the best ask and
the best bid used for matching are the prices of the last level (10.01 and
9.98), not those of the top level (10 and 9.99). -/
theorem scanAsk_fallback_not_top :
    scanAsk depthsNoVolume 0 = 10.01 ∧ scanAsk depthsNoVolume 0 ≠ 10
      ∧ scanBid depthsNoVolume 0 = 9.98 ∧ scanBid depthsNoVolume 0 ≠ 9.99 := by
  decide!

/-- C13, amended. For every non-empty depth list, the best ask used for matching
is the ask price of the first level whose ask volume is positive, and if no
level has positive ask volume it is the ask price of the last level; the best
bid is the bid price of the first level with positive bid volume, and the bid
price of the last level if there is none. -/
theorem scanAsk_scanBid_first_volume_or_last (depths : List OrderBook) (h : depths ≠ []) :
    ((∃ pre ob post, depths = pre ++ ob :: post ∧ (∀ x ∈ pre, ¬ x.AskVolume > 0)
          ∧ ob.AskVolume > 0 ∧ scanAsk depths 0 = ob.Ask)
      ∨ ((∀ x ∈ depths, ¬ x.AskVolume > 0) ∧ scanAsk depths 0 = (depths.getLast h).Ask))
    ∧ ((∃ pre ob post, depths = pre ++ ob :: post ∧ (∀ x ∈ pre, ¬ x.BidVolume > 0)
          ∧ ob.BidVolume > 0 ∧ scanBid depths 0 = ob.Bid)
      ∨ ((∀ x ∈ depths, ¬ x.BidVolume > 0) ∧ scanBid depths 0 = (depths.getLast h).Bid)) :=
  ⟨scanAsk_spec depths h 0, scanBid_spec depths h 0⟩

/-- The amended C13 at two levels of which the second has volume: the best
ask and bid are those of the second level. -/
theorem scanAsk_scanBid_first_volume_or_last_witness :
    (((∃ pre ob post, depthsSecondLevel = pre ++ ob :: post ∧ (∀ x ∈ pre, ¬ x.AskVolume > 0)
          ∧ ob.AskVolume > 0 ∧ scanAsk depthsSecondLevel 0 = ob.Ask)
      ∨ ((∀ x ∈ depthsSecondLevel, ¬ x.AskVolume > 0)
        ∧ scanAsk depthsSecondLevel 0
          = (depthsSecondLevel.getLast (List.cons_ne_nil _ _)).Ask))
    ∧ ((∃ pre ob post, depthsSecondLevel = pre ++ ob :: post ∧ (∀ x ∈ pre, ¬ x.BidVolume > 0)
          ∧ ob.BidVolume > 0 ∧ scanBid depthsSecondLevel 0 = ob.Bid)
      ∨ ((∀ x ∈ depthsSecondLevel, ¬ x.BidVolume > 0)
        ∧ scanBid depthsSecondLevel 0
          = (depthsSecondLevel.getLast (List.cons_ne_nil _ _)).Bid)))
    ∧ scanAsk depthsSecondLevel 0 = 10.01 ∧ scanBid depthsSecondLevel 0 = 9.98 :=
  ⟨scanAsk_scanBid_first_volume_or_last depthsSecondLevel (List.cons_ne_nil _ _),
    by decide!, by decide!⟩

/-- C14, as stated, fails: for a market-price order on "SSE" the minimum lot is
the order's `MinMarketOrderVolume`, not 100: it is 0 for the order
`InsertDemoOrder` builds and 200 when the field is 200. -/
theorem minimumVolume_sse_market_not_100 :
    (buildOrder ctx monday10h reqMarket instStock 0).Exchange = "SSE"
      ∧ (buildOrder ctx monday10h reqMarket instStock 0).PriceType
          = pbEnums.OrderPriceType_MARKET_PRICE
      ∧ minimumVolume pbEnums (buildOrder ctx monday10h reqMarket instStock 0) = 0
      ∧ minimumVolume pbEnums
          { buildOrder ctx monday10h reqMarket instStock 0 with MinMarketOrderVolume := 200 }
          = 200 := by
  decide!

/-- C14, amended. The minimum lot used to split a fill is the order's
`MinMarketOrderVolume` whenever its price type is market price, whatever the
exchange; for every other price type it is 100 when the order's exchange is
"SSE" or "SZE" and the order's `MinLimitOrderVolume` on every other exchange. -/
theorem minimumVolume_by_price_type_then_exchange (K : PbEnums) (o : DemoOrder) :
    (o.PriceType = K.OrderPriceType_MARKET_PRICE → minimumVolume K o = o.MinMarketOrderVolume)
    ∧ (o.PriceType ≠ K.OrderPriceType_MARKET_PRICE → (o.Exchange = "SSE" ∨ o.Exchange = "SZE") →
        minimumVolume K o = 100)
    ∧ (o.PriceType ≠ K.OrderPriceType_MARKET_PRICE → ¬ (o.Exchange = "SSE" ∨ o.Exchange = "SZE") →
        minimumVolume K o = o.MinLimitOrderVolume) := by
  refine ⟨?_, ?_, ?_⟩
  · intro h
    simp [minimumVolume, h]
  · intro h he
    simp only [minimumVolume, h, he, if_true, if_false]
  · intro h he
    simp only [minimumVolume, h, he, if_false]

/-- The amended C14 at the limit order for "600000" on "SSE": the minimum lot
is 100. -/
theorem minimumVolume_by_price_type_then_exchange_witness :
    minimumVolume pbEnums (buildOrder ctx monday10h (reqStock 200) instStock 0) = 100 :=
  (minimumVolume_by_price_type_then_exchange pbEnums
    (buildOrder ctx monday10h (reqStock 200) instStock 0)).2.1 (by decide) (Or.inl rfl)

/-! ## The fill decision -/

theorem venueAdjust_fst (loc : Int → Int) (mds : MarketDataSnapshot) (o : DemoOrder)
    (b : Bool) (p : ℚ) (h : (venueAdjust loc mds o b p).1 = true) : b = true := by
  unfold venueAdjust at h
  dsimp only at h
  split at h
  · rename_i hc; exact hc.2
  · exact h

theorem fillDecision_fst (K : PbEnums) (mds : MarketDataSnapshot) (o : DemoOrder) (ask bid : ℚ)
    (h : (fillDecision K mds o ask bid).1 = true) :
    (o.Direction = K.DirectionType_LONG
        ∧ o.Price ≥ ask - 0.000001 ∧ ask > 0 ∧ ask < 900000000)
    ∨ (o.Direction ≠ K.DirectionType_LONG ∧ o.Direction = K.DirectionType_SHORT
        ∧ o.Price ≤ bid + 0.0000001 ∧ bid > 0 ∧ bid < 900000000) := by
  unfold fillDecision at h
  rw [if_neg (by decide)] at h
  split at h
  · rename_i hl
    split at h
    · rename_i hc; exact Or.inl ⟨hl, hc⟩
    · simp at h
  · rename_i hl
    split at h
    · rename_i hs
      split at h
      · rename_i hc; exact Or.inr ⟨hl, hs, hc⟩
      · simp at h
    · simp at h

theorem resolveFill_some_decision (K : PbEnums) (loc : Int → Int) (mds : MarketDataSnapshot)
    (o : DemoOrder) (x : ℚ × Int) (h : resolveFill K loc mds o = some x) :
    (fillDecision K mds o (scanAsk mds.Depths 0) (scanBid mds.Depths 0)).1 = true := by
  unfold resolveFill at h
  dsimp only at h
  obtain ⟨a, ha⟩ : ∃ a, a = venueAdjust loc mds o
      (fillDecision K mds o (scanAsk mds.Depths 0) (scanBid mds.Depths 0)).1
      (fillDecision K mds o (scanAsk mds.Depths 0) (scanBid mds.Depths 0)).2 := ⟨_, rfl⟩
  rw [← ha] at h
  by_cases hp : a.2.1 > 99990000
  · rw [if_pos hp] at h
    simp at h
  · rw [if_neg hp] at h
    by_cases hb : a.1 = true
    · rw [ha] at hb
      exact venueAdjust_fst loc mds o _ _ hb
    · rw [if_neg hb] at h
      simp at h

theorem resolveFill_none_of_price (K : PbEnums) (loc : Int → Int) (mds : MarketDataSnapshot)
    (o : DemoOrder)
    (h : (venueAdjust loc mds o
            (fillDecision K mds o (scanAsk mds.Depths 0) (scanBid mds.Depths 0)).1
            (fillDecision K mds o (scanAsk mds.Depths 0) (scanBid mds.Depths 0)).2).2.1
          > 99990000) :
    resolveFill K loc mds o = none := by
  unfold resolveFill
  dsimp only
  rw [if_pos h]
  simp

theorem resolveFill_range (K : PbEnums) (loc : Int → Int) (mds : MarketDataSnapshot)
    (o : DemoOrder) (p : ℚ) (t : Int) (h : resolveFill K loc mds o = some (p, t))
    (hlow : 0 < mds.Low) (hle : mds.Low ≤ mds.High) (hhigh : mds.High < 99999999) :
    mds.Low ≤ p ∧ p ≤ mds.High := by
  unfold resolveFill at h
  dsimp only at h
  obtain ⟨a, ha⟩ : ∃ a, a = venueAdjust loc mds o
      (fillDecision K mds o (scanAsk mds.Depths 0) (scanBid mds.Depths 0)).1
      (fillDecision K mds o (scanAsk mds.Depths 0) (scanBid mds.Depths 0)).2 := ⟨_, rfl⟩
  rw [← ha] at h
  have hpos : mds.High > 0 := lt_of_lt_of_le hlow hle
  have hl9 : mds.Low < 99999999 := lt_of_le_of_lt hle hhigh
  by_cases hb : (if a.2.1 > 99990000 then false else a.1) = true
  · rw [if_pos hb] at h
    simp only [Option.some.injEq, Prod.mk.injEq] at h
    obtain ⟨hp, _⟩ := h
    rw [← hp]
    obtain ⟨q, hq⟩ : ∃ q, q = (if a.2.1 > mds.High ∧ mds.High > 0 ∧ mds.High < 99999999
        then mds.High else a.2.1) := ⟨_, rfl⟩
    rw [← hq]
    have hqle : q ≤ mds.High := by
      rw [hq]
      split
      · exact le_refl _
      · rename_i hn
        by_contra hc
        exact hn ⟨lt_of_not_ge hc, hpos, hhigh⟩
    by_cases h2 : q < mds.Low
    · rw [if_pos ⟨h2, hlow, hl9⟩]
      exact ⟨le_refl _, hle⟩
    · rw [if_neg (fun hc => h2 hc.1)]
      exact ⟨le_of_not_lt h2, hqle⟩
  · rw [if_neg hb] at h
    simp at h

theorem fillOrder_fault (W : Ctx) (nowT : Nat) (mds : MarketDataSnapshot) (o : DemoOrder)
    (uid : Nat) (price : ℚ) (tradedTime : Int) :
    (fillOrder W nowT mds o uid price tradedTime).fault
      = if minimumVolume W.K o = 0 then some Fault.divideByZero else none := by
  unfold fillOrder
  dsimp only
  have hm : minimumVolume W.K { o with Status := W.K.OrderStatus_DONE } = minimumVolume W.K o := rfl
  rw [hm]
  split
  · rfl
  · have hsome := tradedVolumes_isSome mds.Exchange nowT o.Volume (minimumVolume W.K o)
    cases ht : tradedVolumes mds.Exchange nowT o.Volume (minimumVolume W.K o) with
    | none => rw [ht] at hsome; simp at hsome
    | some tv => rfl

theorem checkDemoOrderDone_decided (W : Ctx) (now : Nat) (mds : MarketDataSnapshot)
    (o : DemoOrder) (uid : Nat) :
    (decidedFill W now mds o = none
        ∧ (checkDemoOrderDone W now mds o uid = ⟨o, [], [], uid, none⟩
          ∨ (skipBeforeDepth W.K now mds o = false ∧ mds.Depths = []
            ∧ checkDemoOrderDone W now mds o uid
              = ⟨o, [], [], uid, some Fault.indexOutOfRange⟩)))
    ∨ (∃ price tradedTime, decidedFill W now mds o = some (price, tradedTime)
        ∧ resolveFill W.K W.loc mds o = some (price, tradedTime)
        ∧ checkDemoOrderDone W now mds o uid = fillOrder W now mds o uid price tradedTime) := by
  rcases checkDemoOrderDone_cases W now mds o uid with
    ⟨h1, e1⟩ | ⟨h1, h2, e1⟩ | ⟨h1, top, rest, h2, ⟨h3, e1⟩ | ⟨h3, h4, e1⟩ | ⟨h3, p, t, h4, e1⟩⟩
  · exact Or.inl ⟨by simp [decidedFill, h1], Or.inl e1⟩
  · exact Or.inl ⟨by simp [decidedFill, h1, h2], Or.inr ⟨h1, h2, e1⟩⟩
  · exact Or.inl ⟨by simp [decidedFill, h1, h2, h3], Or.inl e1⟩
  · exact Or.inl ⟨by simp [decidedFill, h1, h2, h3, h4], Or.inl e1⟩
  · exact Or.inr ⟨p, t, by simp [decidedFill, h1, h2, h3, h4], h4, e1⟩

theorem checkDemoOrderDone_sentOrders (W : Ctx) (now : Nat) (mds : MarketDataSnapshot)
    (o : DemoOrder) (uid : Nat) :
    (checkDemoOrderDone W now mds o uid).sentOrders
      = if (decidedFill W now mds o).isSome then [{ o with Status := W.K.OrderStatus_DONE }]
        else [] := by
  rcases checkDemoOrderDone_decided W now mds o uid with ⟨h, e | ⟨_, _, e⟩⟩ | ⟨p, t, h, _, e⟩
  · rw [e, h]; rfl
  · rw [e, h]; rfl
  · rw [e, h, fillOrder_sentOrders]; rfl

theorem checkDemoOrderDone_order_eq (W : Ctx) (now : Nat) (mds : MarketDataSnapshot)
    (o : DemoOrder) (uid : Nat) :
    (checkDemoOrderDone W now mds o uid).order
      = if (decidedFill W now mds o).isSome then { o with Status := W.K.OrderStatus_DONE }
        else o := by
  rcases checkDemoOrderDone_decided W now mds o uid with ⟨h, e | ⟨_, _, e⟩⟩ | ⟨p, t, h, _, e⟩
  · rw [e, h]; rfl
  · rw [e, h]; rfl
  · rw [e, h, fillOrder_order]; rfl

theorem checkDemoOrderDone_trades (W : Ctx) (now : Nat) (mds : MarketDataSnapshot)
    (o : DemoOrder) (uid : Nat) :
    ∀ t ∈ (checkDemoOrderDone W now mds o uid).sentTrades,
      ∃ price tradedTime, decidedFill W now mds o = some (price, tradedTime)
        ∧ resolveFill W.K W.loc mds o = some (price, tradedTime)
        ∧ o.ProductType ≠ W.K.ProductType_COMBINATION
        ∧ t.Price = price ∧ t.TradedTime = tradedTime := by
  intro t hmem
  rcases checkDemoOrderDone_decided W now mds o uid with ⟨h, e | ⟨_, _, e⟩⟩ | ⟨p, tt, h, hr, e⟩
  · rw [e] at hmem; simp at hmem
  · rw [e] at hmem; simp at hmem
  · rw [e] at hmem
    obtain ⟨hc, hp, htt⟩ := fillOrder_trades _ _ _ _ _ _ _ t hmem
    exact ⟨p, tt, h, hr, hc, hp, htt⟩

theorem checkDemoOrderDone_fault (W : Ctx) (now : Nat) (mds : MarketDataSnapshot)
    (o : DemoOrder) (uid : Nat) :
    (checkDemoOrderDone W now mds o uid).fault
      = if (decidedFill W now mds o).isSome then
          (if minimumVolume W.K o = 0 then some Fault.divideByZero else none)
        else if skipBeforeDepth W.K now mds o = false ∧ mds.Depths = [] then
          some Fault.indexOutOfRange
        else none := by
  rcases checkDemoOrderDone_cases W now mds o uid with
    ⟨h1, e1⟩ | ⟨h1, h2, e1⟩ | ⟨h1, top, rest, h2, ⟨h3, e1⟩ | ⟨h3, h4, e1⟩ | ⟨h3, p, t, h4, e1⟩⟩
  · rw [e1]; simp [decidedFill, h1]
  · rw [e1]; simp [decidedFill, h1, h2]
  · rw [e1]; simp [decidedFill, h1, h2, h3]
  · rw [e1]; simp [decidedFill, h1, h2, h3, h4]
  · rw [e1, fillOrder_fault]; simp [decidedFill, h1, h2, h3, h4]

/-- C12. The market-order branch is never taken. For every snapshot, every
order and every price type put in its `PriceType` field: `checkDemoOrderDone`
makes the same fill decision as for the order itself (it sends the done
order-update for the one exactly when it does for the other) and resolves the
same traded price and time, which is the price of every trade it sends; and an
order is filled, a market-price order included, only when the limit condition
on its `Price` holds for its direction. -/
theorem checkDemoOrderDone_price_type_irrelevant (W : Ctx) (now : Nat) (mds : MarketDataSnapshot)
    (o : DemoOrder) (pt : Int) (uid : Nat) :
    ((checkDemoOrderDone W now mds { o with PriceType := pt } uid).sentOrders = []
        ↔ (checkDemoOrderDone W now mds o uid).sentOrders = [])
    ∧ decidedFill W now mds { o with PriceType := pt } = decidedFill W now mds o
    ∧ resolveFill W.K W.loc mds { o with PriceType := pt } = resolveFill W.K W.loc mds o
    ∧ (∀ t ∈ (checkDemoOrderDone W now mds { o with PriceType := pt } uid).sentTrades,
        ∃ price tradedTime, decidedFill W now mds o = some (price, tradedTime)
          ∧ t.Price = price ∧ t.TradedTime = tradedTime)
    ∧ ((checkDemoOrderDone W now mds { o with PriceType := pt } uid).sentOrders ≠ [] →
        (o.Direction = W.K.DirectionType_LONG
            ∧ o.Price ≥ scanAsk mds.Depths 0 - 0.000001 ∧ scanAsk mds.Depths 0 > 0
            ∧ scanAsk mds.Depths 0 < 900000000)
        ∨ (o.Direction ≠ W.K.DirectionType_LONG ∧ o.Direction = W.K.DirectionType_SHORT
            ∧ o.Price ≤ scanBid mds.Depths 0 + 0.0000001 ∧ scanBid mds.Depths 0 > 0
            ∧ scanBid mds.Depths 0 < 900000000)) := by
  have hdf : decidedFill W now mds { o with PriceType := pt } = decidedFill W now mds o := rfl
  have hd : fillDecision W.K mds { o with PriceType := pt } (scanAsk mds.Depths 0)
      (scanBid mds.Depths 0)
      = fillDecision W.K mds o (scanAsk mds.Depths 0) (scanBid mds.Depths 0) := rfl
  refine ⟨?_, hdf, rfl, ?_, ?_⟩
  · rw [checkDemoOrderDone_sentOrders, checkDemoOrderDone_sentOrders, hdf]
    cases decidedFill W now mds o <;> simp
  · intro t hmem
    obtain ⟨p, tt, h, _, _, hp, htt⟩ := checkDemoOrderDone_trades W now mds _ uid t hmem
    exact ⟨p, tt, by rw [← hdf]; exact h, hp, htt⟩
  · intro hne
    rw [checkDemoOrderDone_sentOrders] at hne
    rcases checkDemoOrderDone_decided W now mds { o with PriceType := pt } uid with
      ⟨h, _⟩ | ⟨p, tt, h, hr, _⟩
    · rw [h] at hne; exact absurd rfl hne
    · have := resolveFill_some_decision _ _ _ _ _ hr
      rw [hd] at this
      exact fillDecision_fst _ _ _ _ _ this

/-- C12 at the market-price order for "600000" that `InsertDemoOrder` builds: it
is filled on the stock tick, and the limit condition of a long order holds for
its price 10 against the best ask 10. -/
theorem checkDemoOrderDone_price_type_irrelevant_witness :
    ((buildOrder ctx monday10h (reqStock 200) instStock 0).Direction
          = ctx.K.DirectionType_LONG
        ∧ (buildOrder ctx monday10h (reqStock 200) instStock 0).Price
            ≥ scanAsk (tickStock 1693792801).Depths 0 - 0.000001
        ∧ scanAsk (tickStock 1693792801).Depths 0 > 0
        ∧ scanAsk (tickStock 1693792801).Depths 0 < 900000000)
      ∨ ((buildOrder ctx monday10h (reqStock 200) instStock 0).Direction
          ≠ ctx.K.DirectionType_LONG
        ∧ (buildOrder ctx monday10h (reqStock 200) instStock 0).Direction
            = ctx.K.DirectionType_SHORT
        ∧ (buildOrder ctx monday10h (reqStock 200) instStock 0).Price
            ≤ scanBid (tickStock 1693792801).Depths 0 + 0.0000001
        ∧ scanBid (tickStock 1693792801).Depths 0 > 0
        ∧ scanBid (tickStock 1693792801).Depths 0 < 900000000) :=
  (checkDemoOrderDone_price_type_irrelevant ctx (monday10h + 2) (tickStock 1693792801)
    (buildOrder ctx monday10h (reqStock 200) instStock 0)
    pbEnums.OrderPriceType_MARKET_PRICE 1).2.2.2.2 (by decide!)

/-- C11 fails in the code on the short side. For the short limit order at
9.9900005 against the best bid 9.99, the condition of the claim holds (the price
is at most the best bid plus 0.000001, and the best bid is inside its bounds),
but the code compares with the best bid plus 0.0000001 and does not fill the
order; the long order at 9.9999995 against the best ask 10, the mirror case, is
filled at 10. -/
theorem fillDecision_short_tolerance_differs :
    scanBid (tickStock 1693792801).Depths 0 = 9.99
      ∧ scanAsk (tickStock 1693792801).Depths 0 = 10
      ∧ (buildOrder ctx monday10h (reqShort 9.9900005) instStock 0).Direction
          = ctx.K.DirectionType_SHORT
      ∧ ((buildOrder ctx monday10h (reqShort 9.9900005) instStock 0).Price
            ≤ scanBid (tickStock 1693792801).Depths 0 + 0.000001
          ∧ 0 < scanBid (tickStock 1693792801).Depths 0
          ∧ scanBid (tickStock 1693792801).Depths 0 < 900000000)
      ∧ fillDecision ctx.K (tickStock 1693792801)
          (buildOrder ctx monday10h (reqShort 9.9900005) instStock 0)
          (scanAsk (tickStock 1693792801).Depths 0) (scanBid (tickStock 1693792801).Depths 0)
          = (false, 0)
      ∧ (checkDemoOrderDone ctx (monday10h + 2) (tickStock 1693792801)
          (buildOrder ctx monday10h (reqShort 9.9900005) instStock 0) 1).sentOrders = []
      ∧ (checkDemoOrderDone ctx (monday10h + 2) (tickStock 1693792801)
          (buildOrder ctx monday10h (reqShort 9.9900005) instStock 0) 1).sentTrades = []
      ∧ (checkDemoOrderDone ctx (monday10h + 2) (tickStock 1693792801)
          (buildOrder ctx monday10h (reqShort 9.9900005) instStock 0) 1).fault = none
      ∧ fillDecision ctx.K (tickStock 1693792801)
          (buildOrder ctx monday10h (reqLong 9.9999995) instStock 0)
          (scanAsk (tickStock 1693792801).Depths 0) (scanBid (tickStock 1693792801).Depths 0)
          = (true, 10) := by
  decide!

/-! ## The session gate, combination orders and the price guards -/

theorem skipBeforeDepth_of_not_matching (K : PbEnums) (now : Nat) (mds : MarketDataSnapshot)
    (o : DemoOrder) (h : (getMarketStatus o.TimeRule now).Matching = false) :
    skipBeforeDepth K now mds o = true := by
  unfold skipBeforeDepth
  rw [h]
  split
  · rfl
  · split
    · rfl
    · split <;> rfl

theorem skipBeforeDepth_congr (K : PbEnums) (now now' : Nat) (mds : MarketDataSnapshot)
    (o : DemoOrder)
    (h : (getMarketStatus o.TimeRule now).Matching = (getMarketStatus o.TimeRule now').Matching) :
    skipBeforeDepth K now mds o = skipBeforeDepth K now' mds o := by
  unfold skipBeforeDepth
  rw [h]

theorem decidedFill_congr (W : Ctx) (now now' : Nat) (mds : MarketDataSnapshot) (o : DemoOrder)
    (h : skipBeforeDepth W.K now mds o = skipBeforeDepth W.K now' mds o) :
    decidedFill W now mds o = decidedFill W now' mds o := by
  unfold decidedFill
  rw [h]

/-- C16, as stated, fails: the gate is resolved at the wall clock, not at the
snapshot's timestamp. For one order and one snapshot whose timestamp (7201
seconds after midnight) is in the matching session of the order's rule list,
the pass made at 7202 seconds after midnight fills the order and the pass made
at 100 seconds after midnight skips it. -/
theorem checkDemoOrderDone_gate_follows_wall_clock :
    (scanMarketStatus ((tickStock 1693792801).Time % 86400)
        (buildOrder ctx monday10h (reqStock 200) instLate 0).TimeRule).Matching = true
      ∧ (checkDemoOrderDone ctx (monday10h + 2) (tickStock 1693792801)
          (buildOrder ctx monday10h (reqStock 200) instLate 0) 1).sentOrders.map
            (fun o => o.Status) = [ctx.K.OrderStatus_DONE]
      ∧ (checkDemoOrderDone ctx (monday10h + 2) (tickStock 1693792801)
          (buildOrder ctx monday10h (reqStock 200) instLate 0) 1).sentTrades.map
            (fun t => t.Volume) = [200]
      ∧ (checkDemoOrderDone ctx tuesday0h (tickStock 1693792801)
          (buildOrder ctx monday10h (reqStock 200) instLate 0) 1).sentOrders = []
      ∧ (checkDemoOrderDone ctx tuesday0h (tickStock 1693792801)
          (buildOrder ctx monday10h (reqStock 200) instLate 0) 1).sentTrades = [] := by
  decide!

/-- C16, amended. `checkDemoOrderDone` skips the order, changing and sending
nothing, unless the rule resolved from the order's stored rule list at the wall
clock of the pass (`now mod 86400`) permits matching; two passes over the same
order and snapshot, made at wall-clock times whose resolved rules have the same
matching flag, make the same fill decision: the same fill price and time or
none, the same order afterwards, the same order-update and the same fault. -/
theorem checkDemoOrderDone_gate_at_wall_clock (W : Ctx) (now now' : Nat)
    (mds : MarketDataSnapshot) (o : DemoOrder) (uid : Nat) :
    ((getMarketStatus o.TimeRule now).Matching = false →
        checkDemoOrderDone W now mds o uid = ⟨o, [], [], uid, none⟩)
    ∧ ((getMarketStatus o.TimeRule now).Matching = (getMarketStatus o.TimeRule now').Matching →
        decidedFill W now mds o = decidedFill W now' mds o
        ∧ (checkDemoOrderDone W now mds o uid).sentOrders
            = (checkDemoOrderDone W now' mds o uid).sentOrders
        ∧ (checkDemoOrderDone W now mds o uid).order = (checkDemoOrderDone W now' mds o uid).order
        ∧ (checkDemoOrderDone W now mds o uid).fault
            = (checkDemoOrderDone W now' mds o uid).fault) := by
  refine ⟨?_, ?_⟩
  · intro h
    unfold checkDemoOrderDone
    rw [if_pos (skipBeforeDepth_of_not_matching W.K now mds o h)]
  · intro h
    have hs := skipBeforeDepth_congr W.K now now' mds o h
    have hd := decidedFill_congr W now now' mds o hs
    refine ⟨hd, ?_, ?_, ?_⟩
    · rw [checkDemoOrderDone_sentOrders, checkDemoOrderDone_sentOrders, hd]
    · rw [checkDemoOrderDone_order_eq, checkDemoOrderDone_order_eq, hd]
    · rw [checkDemoOrderDone_fault, checkDemoOrderDone_fault, hd, hs]

/-- The amended C16 at the stock order whose rule list opens matching at 3600
seconds after midnight: the pass made at 100 seconds after midnight is a skip. -/
theorem checkDemoOrderDone_gate_at_wall_clock_witness :
    checkDemoOrderDone ctx tuesday0h (tickStock 1693792801)
        (buildOrder ctx monday10h (reqStock 200) instLate 0) 1
      = ⟨buildOrder ctx monday10h (reqStock 200) instLate 0, [], [], 1, none⟩ :=
  (checkDemoOrderDone_gate_at_wall_clock ctx tuesday0h tuesday0h (tickStock 1693792801)
    (buildOrder ctx monday10h (reqStock 200) instLate 0) 1).1 (by decide)

/-- C17, as stated, fails: a matching pass over a combination order whose limit
price is met marks the order done and sends the done order-update; only the
trades are left out. -/
theorem checkDemoOrderDone_combination_marked_done :
    orderCombo.ProductType = ctx.K.ProductType_COMBINATION
      ∧ orderCombo.Status = 0
      ∧ (checkDemoOrderDone ctx (monday10h + 2) tickCombo orderCombo 1).order.Status
          = ctx.K.OrderStatus_DONE
      ∧ (checkDemoOrderDone ctx (monday10h + 2) tickCombo orderCombo 1).order ≠ orderCombo
      ∧ (checkDemoOrderDone ctx (monday10h + 2) tickCombo orderCombo 1).sentOrders.map
          (fun o => (o.DemoOrderId, o.Status)) = [("7", 5)]
      ∧ (checkDemoOrderDone ctx (monday10h + 2) tickCombo orderCombo 1).sentTrades = []
      ∧ (checkDemoOrderDone ctx (monday10h + 2) tickCombo orderCombo 1).fault = none := by
  decide!

/-- C17, amended. For every order whose product type is combination and every
snapshot, `checkDemoOrderDone` sends no trade; either it decides on no fill,
leaves the order unchanged and sends no order-update, or it decides on a fill,
sets the status of the order to done and sends that one order-update. -/
theorem checkDemoOrderDone_combination_no_trade (W : Ctx) (now : Nat) (mds : MarketDataSnapshot)
    (o : DemoOrder) (uid : Nat) (hc : o.ProductType = W.K.ProductType_COMBINATION) :
    (checkDemoOrderDone W now mds o uid).sentTrades = []
      ∧ ((decidedFill W now mds o = none
            ∧ (checkDemoOrderDone W now mds o uid).order = o
            ∧ (checkDemoOrderDone W now mds o uid).sentOrders = [])
          ∨ ((decidedFill W now mds o).isSome = true
            ∧ (checkDemoOrderDone W now mds o uid).order
                = { o with Status := W.K.OrderStatus_DONE }
            ∧ (checkDemoOrderDone W now mds o uid).sentOrders
                = [{ o with Status := W.K.OrderStatus_DONE }])) := by
  refine ⟨?_, ?_⟩
  · rw [List.eq_nil_iff_forall_not_mem]
    intro t hmem
    obtain ⟨_, _, _, _, hne, _⟩ := checkDemoOrderDone_trades W now mds o uid t hmem
    exact hne hc
  · rw [checkDemoOrderDone_order_eq, checkDemoOrderDone_sentOrders]
    cases h : decidedFill W now mds o with
    | none => exact Or.inl ⟨rfl, rfl, rfl⟩
    | some x => exact Or.inr ⟨rfl, rfl, rfl⟩

/-- The amended C17 at the combination order of "DCE": no trade is sent. -/
theorem checkDemoOrderDone_combination_no_trade_witness :
    (checkDemoOrderDone ctx (monday10h + 2) tickCombo orderCombo 1).sentTrades = [] :=
  (checkDemoOrderDone_combination_no_trade ctx (monday10h + 2) tickCombo orderCombo 1
    (by decide)).1

theorem decidedFill_none_of_resolveFill (W : Ctx) (now : Nat) (mds : MarketDataSnapshot)
    (o : DemoOrder) (h : resolveFill W.K W.loc mds o = none) : decidedFill W now mds o = none := by
  unfold decidedFill
  split
  · rfl
  · split
    · rfl
    · split
      · rfl
      · exact h

/-- C18. The price guards after the venue adjustment. When the traded price
resolved by the fill decision and the venue adjustment exceeds 99,990,000,
`checkDemoOrderDone` decides on no fill: the order is unchanged and neither an
order-update nor a trade is sent. When the snapshot has a valid daily range
(0 < low <= high < 99,999,999), the price of every trade sent is between low
and high. All trades sent by one call carry the same price. -/
theorem checkDemoOrderDone_price_guards (W : Ctx) (now : Nat) (mds : MarketDataSnapshot)
    (o : DemoOrder) (uid : Nat) :
    ((venueAdjust W.loc mds o
          (fillDecision W.K mds o (scanAsk mds.Depths 0) (scanBid mds.Depths 0)).1
          (fillDecision W.K mds o (scanAsk mds.Depths 0) (scanBid mds.Depths 0)).2).2.1
        > 99990000 →
        decidedFill W now mds o = none
        ∧ (checkDemoOrderDone W now mds o uid).order = o
        ∧ (checkDemoOrderDone W now mds o uid).sentOrders = []
        ∧ (checkDemoOrderDone W now mds o uid).sentTrades = [])
    ∧ (0 < mds.Low → mds.Low ≤ mds.High → mds.High < 99999999 →
        ∀ t ∈ (checkDemoOrderDone W now mds o uid).sentTrades,
          mds.Low ≤ t.Price ∧ t.Price ≤ mds.High)
    ∧ (∀ t ∈ (checkDemoOrderDone W now mds o uid).sentTrades,
        ∀ t' ∈ (checkDemoOrderDone W now mds o uid).sentTrades, t.Price = t'.Price) := by
  refine ⟨?_, ?_, ?_⟩
  · intro h
    have hd := decidedFill_none_of_resolveFill W now mds o
      (resolveFill_none_of_price W.K W.loc mds o h)
    refine ⟨hd, ?_, ?_, ?_⟩
    · rw [checkDemoOrderDone_order_eq, hd]; rfl
    · rw [checkDemoOrderDone_sentOrders, hd]; rfl
    · rw [List.eq_nil_iff_forall_not_mem]
      intro t hmem
      obtain ⟨p, tt, hsome, _⟩ := checkDemoOrderDone_trades W now mds o uid t hmem
      rw [hd] at hsome
      exact Option.noConfusion hsome
  · intro hlow hle hhigh t hmem
    obtain ⟨p, tt, _, hr, _, hp, _⟩ := checkDemoOrderDone_trades W now mds o uid t hmem
    rw [hp]
    exact resolveFill_range W.K W.loc mds o p tt hr hlow hle hhigh
  · intro t hmem t' hmem'
    obtain ⟨p, tt, h1, _, _, hp, _⟩ := checkDemoOrderDone_trades W now mds o uid t hmem
    obtain ⟨p', tt', h2, _, _, hp', _⟩ := checkDemoOrderDone_trades W now mds o uid t' hmem'
    rw [h1] at h2
    simp only [Option.some.injEq, Prod.mk.injEq] at h2
    rw [hp, hp', h2.1]

/-- C18 at the stock order filled on a tick with the daily range 9.90 to 9.95:
the best ask is 10 and the one trade sent carries the price 9.95. -/
theorem checkDemoOrderDone_price_guards_witness :
    (∀ t ∈ (checkDemoOrderDone ctx (monday10h + 2) (tickStockRange 1693792801)
        (buildOrder ctx monday10h (reqStock 200) instStock 0) 1).sentTrades,
        (tickStockRange 1693792801).Low ≤ t.Price ∧ t.Price ≤ (tickStockRange 1693792801).High)
      ∧ (checkDemoOrderDone ctx (monday10h + 2) (tickStockRange 1693792801)
          (buildOrder ctx monday10h (reqStock 200) instStock 0) 1).sentTrades.map
            (fun t => (t.Price, t.Volume)) = [(9.95, 200)] :=
  ⟨(checkDemoOrderDone_price_guards ctx (monday10h + 2) (tickStockRange 1693792801)
      (buildOrder ctx monday10h (reqStock 200) instStock 0) 1).2.1
      (by decide!) (by decide!) (by decide!),
    by decide!⟩

/-! ## The traded time of the auction windows and the depth access -/

/-- C15 fails in the code: the traded time is not in the tick's day. For a fill
on "SSE" at a tick of 09:24:00 local time (5040 seconds after midnight UTC of
4 September 2023), every trade carries the traded time 5040 * 86400 + 33901 =
435489901, not the tick's midnight plus 33901 = 1693819501; for a tick of
14:59:30 (25170 seconds after midnight UTC) it is 25170 * 86400 + 53999 =
2174741999, not 1693839599. -/
theorem venueAdjust_auction_time_not_in_day :
    (localHour ctx.loc monday0924, localMinute ctx.loc monday0924) = (9, 24)
      ∧ (monday0924 : Int) / 86400 * 86400 = mondayMidnight
      ∧ (checkDemoOrderDone ctx (monday0924 + 1) (tickStock monday0924)
          (buildOrder ctx monday0923 (reqStock 200) instStock 0) 1).sentTrades.map
            (fun t => (t.TradedTime, t.Volume)) = [(435489901, 100), (435489901, 100)]
      ∧ mondayMidnight + 33901 = 1693819501
      ∧ (localHour ctx.loc monday1459, localMinute ctx.loc monday1459) = (14, 59)
      ∧ (monday1459 : Int) / 86400 * 86400 = mondayMidnight
      ∧ (checkDemoOrderDone ctx (monday1459 + 1) (tickStock monday1459)
          (buildOrder ctx monday0923 (reqStock 200) instStock 0) 1).sentTrades.map
            (fun t => (t.TradedTime, t.Volume)) = [(2174741999, 100), (2174741999, 100)]
      ∧ mondayMidnight + 53999 = 1693839599 := by
  decide!

/-- C19 fails in the code: the depth list is read before its length is tested.
The open stock order passes the trading-day, order-source, done and session
checks, and on a snapshot without depth levels the matching pass stops with an
index out of range at `mds.Depths[0]` instead of skipping the order. -/
theorem CheckDemoTrade_empty_depths_out_of_range :
    (tickStockNoDepth 1693792801).Depths = []
      ∧ (envStock 200).demoOrderList.map
          (fun o => skipBeforeDepth ctx.K (monday10h + 2) (tickStockNoDepth 1693792801) o)
          = [false]
      ∧ (CheckDemoTrade ctx (monday10h + 2) (tickStockNoDepth 1693792801) (envStock 200)).2
          = some Fault.indexOutOfRange
      ∧ (envStock 200).demoOrderList.map
          (fun o => (checkDemoOrderDone ctx (monday10h + 2) (tickStockNoDepth 1693792801)
            o 1).fault) = [some Fault.indexOutOfRange] := by
  decide!

end Hub
